import Mathlib

/-!
Verification of the PropUpkeep core (structured issue extraction pipeline and
record store) against its source. Python strings are modeled as `String`,
floats as `ℚ`, datetimes as integer timestamps (the stdlib ISO codec is an
injective external encoding, abstracted by the identity embedding into JSON
numbers), and the stdlib `json.loads`/`json.dumps` pair is abstracted by a
`Json` syntax tree: one durable-log line is represented by the outcome of
decoding it.
-/

namespace PropUpkeep

/-- Model of Python `str.strip()` on a character list: drop whitespace from
both ends. -/
def pyStripList (l : List Char) : List Char :=
  ((l.dropWhile Char.isWhitespace).reverse.dropWhile Char.isWhitespace).reverse

/-- Model of Python `str.strip()`. -/
def pyStrip (s : String) : String := ⟨pyStripList s.data⟩

/-- Model of Python `str.lower()` (ASCII range, which is all the source compares). -/
def pyLower (s : String) : String := ⟨s.data.map Char.toLower⟩

theorem dropWhile_of_head_fails {p : Char → Bool} :
    ∀ l : List Char, (∀ c t, l = c :: t → p c = false) → l.dropWhile p = l := by
  intro l h
  match l with
  | [] => rfl
  | c :: t =>
    have hc : p c = false := h c t rfl
    simp [List.dropWhile_cons, hc]

theorem head?_pyStripList_not (l : List Char) :
    ∀ c t, pyStripList l = c :: t → Char.isWhitespace c = false := by
  intro c t h
  unfold pyStripList at h
  set A := l.dropWhile Char.isWhitespace with hA
  set B := A.reverse.dropWhile Char.isWhitespace with hB
  have hmem : B.reverse.head? = some c := by rw [h]; rfl
  have hBne : B ≠ [] := by
    intro hnil
    rw [hnil] at h
    simp at h
  have hlast : B.getLast? = A.reverse.getLast? := by
    have hsuf : B <:+ A.reverse := by rw [hB]; exact List.dropWhile_suffix _
    obtain ⟨pre, hpre⟩ := hsuf
    rw [← hpre, List.getLast?_append]
    have : B.getLast? ≠ none := by
      simp [List.getLast?_eq_none_iff, hBne]
    cases hBg : B.getLast? with
    | none => exact absurd hBg this
    | some x => simp
  have hAheadc : A.head? = some c := by
    have h1 : B.reverse.head? = B.getLast? := List.head?_reverse B
    rw [h1, hlast, List.getLast?_reverse] at hmem
    exact hmem
  have hAne : A ≠ [] := by
    intro hnil; rw [hnil] at hAheadc; simp at hAheadc
  have := List.head?_dropWhile_not Char.isWhitespace l
  rw [← hA] at this
  rw [hAheadc] at this
  simpa using this

theorem getLast?_pyStripList_not (l : List Char) :
    ∀ c, (pyStripList l).getLast? = some c → Char.isWhitespace c = false := by
  intro c h
  unfold pyStripList at h
  set A := l.dropWhile Char.isWhitespace with hA
  set B := A.reverse.dropWhile Char.isWhitespace with hB
  rw [List.getLast?_reverse] at h
  have := List.head?_dropWhile_not Char.isWhitespace A.reverse
  rw [← hB, h] at this
  simpa using this

theorem pyStripList_idem (l : List Char) : pyStripList (pyStripList l) = pyStripList l := by
  have hfront : (pyStripList l).dropWhile Char.isWhitespace = pyStripList l :=
    dropWhile_of_head_fails _ (fun c t h => head?_pyStripList_not l c t h)
  show (((pyStripList l).dropWhile Char.isWhitespace).reverse.dropWhile
      Char.isWhitespace).reverse = pyStripList l
  rw [hfront]
  have hback : (pyStripList l).reverse.dropWhile Char.isWhitespace = (pyStripList l).reverse := by
    apply dropWhile_of_head_fails
    intro c t h
    have : (pyStripList l).getLast? = some c := by
      rw [← List.head?_reverse, h]; rfl
    exact getLast?_pyStripList_not l c this
  rw [hback, List.reverse_reverse]

theorem pyStrip_idem (s : String) : pyStrip (pyStrip s) = pyStrip s := by
  show (⟨pyStripList (pyStripList s.data)⟩ : String) = ⟨pyStripList s.data⟩
  rw [pyStripList_idem]

theorem pyStrip_empty : pyStrip "" = "" := rfl

theorem ne_empty_of_one_le_length {s : String} (h : 1 ≤ s.length) : s ≠ "" := by
  intro hs; subst hs; simp [String.length] at h

/-- Duplicate removal keeping the first occurrence, with a seen-accumulator
(model of the membership test the source performs against its output list). -/
def dedupKeepFirstGo : List String → List String → List String
  | [], _ => []
  | x :: xs, seen => if x ∈ seen then dedupKeepFirstGo xs seen else x :: dedupKeepFirstGo xs (x :: seen)

def dedupKeepFirst (l : List String) : List String := dedupKeepFirstGo l []

/-- Boolean duplicate-freedom check. -/
def nodupB : List String → Bool
  | [] => true
  | x :: xs => !(xs.contains x) && nodupB xs

/-- The shared normalizer of `ExtractedEntities.normalize_terms` and
`AIFormattedIssue.normalize_followups`: strip each term, drop empties, keep
the first occurrence of each distinct value.  `acc` is the output list built
so far, against which the membership test runs. -/
def normTermsGo : List String → List String → List String
  | [], acc => acc
  | t :: rest, acc =>
    let cleaned := pyStrip t
    if cleaned ≠ "" ∧ cleaned ∉ acc then normTermsGo rest (acc ++ [cleaned])
    else normTermsGo rest acc

def normTerms (l : List String) : List String := normTermsGo l []

theorem normTermsGo_fixed :
    ∀ (l acc : List String), (∀ s ∈ l, pyStrip s = s ∧ s ≠ "") → l.Nodup →
      (∀ s ∈ l, s ∉ acc) → normTermsGo l acc = acc ++ l := by
  intro l
  induction l with
  | nil => intro acc _ _ _; simp [normTermsGo]
  | cons t rest ih =>
    intro acc hwf hnd hdisj
    obtain ⟨hstrip, hne⟩ := hwf t (by simp)
    have hnotacc : t ∉ acc := hdisj t (by simp)
    rw [normTermsGo]
    simp only [hstrip]
    rw [if_pos ⟨hne, hnotacc⟩]
    rw [ih (acc ++ [t]) (fun s hs => hwf s (by simp [hs])) (List.Nodup.of_cons hnd)
      (fun s hs => by
        intro hmem
        rcases List.mem_append.mp hmem with h1 | h1
        · exact hdisj s (by simp [hs]) h1
        · have : s = t := by simpa using h1
          subst this
          exact (List.nodup_cons.mp hnd).1 hs)]
    simp

theorem normTerms_fixed (l : List String) (h : ∀ s ∈ l, pyStrip s = s ∧ s ≠ "")
    (hnd : l.Nodup) : normTerms l = l := by
  have := normTermsGo_fixed l [] h hnd (by simp)
  simpa [normTerms] using this

theorem normTermsGo_wf :
    ∀ (l acc : List String),
      (∀ s ∈ acc, pyStrip s = s ∧ s ≠ "") → acc.Nodup →
      (∀ s ∈ normTermsGo l acc, pyStrip s = s ∧ s ≠ "") ∧ (normTermsGo l acc).Nodup := by
  intro l
  induction l with
  | nil => intro acc h hnd; exact ⟨h, hnd⟩
  | cons t rest ih =>
    intro acc h hnd
    rw [normTermsGo]
    by_cases hc : pyStrip t ≠ "" ∧ pyStrip t ∉ acc
    · simp only [if_pos hc]
      apply ih
      · intro s hs
        rcases List.mem_append.mp hs with h1 | h1
        · exact h s h1
        · have : s = pyStrip t := by simpa using h1
          subst this
          exact ⟨pyStrip_idem t, hc.1⟩
      · rw [List.nodup_append]
        refine ⟨hnd, List.nodup_singleton _, ?_⟩
        intro a ha hb
        have : a = pyStrip t := by simpa using hb
        subst this
        exact hc.2 ha
    · simp only [if_neg hc]
      exact ih acc h hnd

theorem normTerms_wf (l : List String) :
    (∀ s ∈ normTerms l, pyStrip s = s ∧ s ≠ "") ∧ (normTerms l).Nodup :=
  normTermsGo_wf l [] (by simp) (List.nodup_nil)

/-- Syntax tree of a decoded JSON document (the result of `json.loads`). -/
inductive Json where
  | null : Json
  | bool (b : Bool) : Json
  | num (q : ℚ) : Json
  | str (s : String) : Json
  | arr (elems : List Json) : Json
  | obj (fields : List (String × Json)) : Json

/-- Python `dict.get` on a decoded JSON object. -/
def lookupField : List (String × Json) → String → Option Json
  | [], _ => none
  | (k, v) :: rest, key => if k = key then some v else lookupField rest key

def Json.isObjB : Json → Bool
  | .obj _ => true
  | _ => false

/-- `models/issue.py`: `Urgency`. -/
inductive Urgency where
  | high | medium | low | unknown
deriving DecidableEq, Repr

def urgencyValue : Urgency → String
  | .high => "High"
  | .medium => "Medium"
  | .low => "Low"
  | .unknown => "Unknown"

def urgencyFromValue (s : String) : Option Urgency :=
  if s = "High" then some .high
  else if s = "Medium" then some .medium
  else if s = "Low" then some .low
  else if s = "Unknown" then some .unknown
  else none

/-- `models/issue.py`: `IssueCategory`. -/
inductive IssueCategory where
  | safety | plumbing | electrical | hvac | appliance | cosmetic | general | unknown
deriving DecidableEq, Repr

def categoryValue : IssueCategory → String
  | .safety => "Safety"
  | .plumbing => "Plumbing"
  | .electrical => "Electrical"
  | .hvac => "HVAC"
  | .appliance => "Appliance"
  | .cosmetic => "Cosmetic"
  | .general => "General"
  | .unknown => "Unknown"

def categoryFromValue (s : String) : Option IssueCategory :=
  if s = "Safety" then some .safety
  else if s = "Plumbing" then some .plumbing
  else if s = "Electrical" then some .electrical
  else if s = "HVAC" then some .hvac
  else if s = "Appliance" then some .appliance
  else if s = "Cosmetic" then some .cosmetic
  else if s = "General" then some .general
  else if s = "Unknown" then some .unknown
  else none

/-- `models/issue.py`: `IssueSource`. -/
inductive IssueSource where
  | note | photo
deriving DecidableEq, Repr

def sourceValue : IssueSource → String
  | .note => "note"
  | .photo => "photo"

def sourceFromValue (s : String) : Option IssueSource :=
  if s = "note" then some .note
  else if s = "photo" then some .photo
  else none

/-- `models/issue.py`: `Status`. -/
inductive Status where
  | open | acknowledged | in_progress | monitoring | resolved
deriving DecidableEq, Repr

def statusValue : Status → String
  | .open => "OPEN"
  | .acknowledged => "ACKNOWLEDGED"
  | .in_progress => "IN_PROGRESS"
  | .monitoring => "MONITORING"
  | .resolved => "RESOLVED"

def statusFromValue (s : String) : Option Status :=
  if s = "OPEN" then some .open
  else if s = "ACKNOWLEDGED" then some .acknowledged
  else if s = "IN_PROGRESS" then some .in_progress
  else if s = "MONITORING" then some .monitoring
  else if s = "RESOLVED" then some .resolved
  else none

def COMMENT_AUTHOR_ROLES : List String :=
  ["Leasing", "Maintenance", "Safety", "PM", "Vendor", "Other"]

/-- Datetimes are modeled as integer timestamps; the stdlib ISO-8601 codec the
source uses is an injective external encoding and is abstracted by embedding
the timestamp directly into JSON numbers. -/
abbrev Datetime := Int

/-- `models/issue.py`: `ExtractedEntities` (validated). -/
structure ExtractedEntities where
  location_terms : List String
  people_terms : List String
  asset_terms : List String
  animal_terms : List String
  quantity_terms : List String
deriving DecidableEq, Repr

def emptyEntities : ExtractedEntities := ⟨[], [], [], [], []⟩

/-- `models/issue.py`: `ConfidenceScores` (floats modeled as rationals). -/
structure ConfidenceScores where
  category : ℚ
  urgency : ℚ
deriving DecidableEq, Repr

/-- `models/issue.py`: `Comment` (validated). -/
structure Comment where
  comment_id : String
  author_name : String
  author_role : String
  message : String
  created_at : Datetime
deriving DecidableEq, Repr

/-- `models/issue.py`: `AIFormattedIssue` (validated output of the
text-generation call). -/
structure AIFormattedIssue where
  issue : String
  reported_observation : String
  urgency : Urgency
  category : IssueCategory
  recommended_action : String
  extracted_entities : ExtractedEntities
  confidence : ConfidenceScores
  needs_followup : Bool
  followup_questions : List String
  photo_observation : Option String
deriving DecidableEq, Repr

/-- `models/issue.py`: `IssueReport` (the persisted entity, validated). -/
structure IssueReport where
  report_id : String
  source : IssueSource
  property_name : String
  building : String
  unit_number : String
  area : Option String
  note_text : Option String
  image_filename : Option String
  image_path : Option String
  image_mime : Option String
  raw_observations : String
  reported_observation : String
  issue : String
  urgency : Urgency
  category : IssueCategory
  recommended_action : String
  extracted_entities : ExtractedEntities
  confidence : ConfidenceScores
  needs_followup : Bool
  followup_questions : List String
  photo_observation : Option String
  status : Status
  comments : List Comment
  recipients : List String
  created_at : Datetime
  updated_at : Datetime
deriving DecidableEq, Repr

/-- `models/issue.py`: `IssueMetadata` (validated). -/
structure IssueMetadata where
  property_name : String
  building : String
  unit_number : String
  area : Option String
deriving DecidableEq, Repr

/-! Field-level validation helpers, mirroring how pydantic runs the
`mode="before"` validators, the declared `Field` constraints, and the plain
(after-mode) field validators of `models/issue.py` on one decoded JSON value.
Lax-mode coercions of non-string scalars (`str()` in the before-validators,
numeric strings for floats, 0/1 for booleans) are not modeled: the store only
ever writes, and the claims only ever read, values of the declared JSON type. -/

/-- A plain `str` field with no validator and no constraints (`report_id`,
`comment_id`). -/
def vPlainStr : Option Json → String → Except String String
  | some (Json.str s), _ => .ok s
  | some _, k => .error (k ++ " must be a string")
  | none, k => .error (k ++ " is required")

/-- A required `str` field subject to `strip_input` (strip, empty becomes
`None` and then fails the non-optional type) and min/max length. -/
def vReqStrStrip (v : Option Json) (k : String) (minL maxL : Nat) : Except String String :=
  match v with
  | some (Json.str s) =>
    let t := pyStrip s
    if t = "" then .error (k ++ " must not be empty")
    else if minL ≤ t.length ∧ t.length ≤ maxL then .ok t
    else .error (k ++ " length out of range")
  | some _ => .error (k ++ " must be a string")
  | none => .error (k ++ " is required")

/-- An optional `str` field subject to `strip_input` (strip, empty becomes
`None`) and a max length. -/
def vOptStrStrip (v : Option Json) (k : String) (maxL : Nat) : Except String (Option String) :=
  match v with
  | none => .ok none
  | some Json.null => .ok none
  | some (Json.str s) =>
    let t := pyStrip s
    if t = "" then .ok none
    else if t.length ≤ maxL then .ok (some t)
    else .error (k ++ " length out of range")
  | some _ => .error (k ++ " must be a string or null")

/-- A required `str` field subject to `AIFormattedIssue.normalize_text`
(strip without the empty-to-`None` step) and min/max length. -/
def vReqTextAI (v : Option Json) (k : String) (minL maxL : Nat) : Except String String :=
  match v with
  | some (Json.str s) =>
    let t := pyStrip s
    if minL ≤ t.length ∧ t.length ≤ maxL then .ok t
    else .error (k ++ " length out of range")
  | some _ => .error (k ++ " must be a string")
  | none => .error (k ++ " is required")

/-- `IssueReport.urgency`: a plain enum field — the value must match one of the
`Urgency` values exactly (no normalizer is declared on `IssueReport`). -/
def vUrgencyExact : Option Json → Except String Urgency
  | some (Json.str s) =>
    match urgencyFromValue s with
    | some u => .ok u
    | none => .error "urgency must be a valid Urgency value"
  | some _ => .error "urgency must be a string"
  | none => .error "urgency is required"

/-- `AIFormattedIssue.normalize_urgency` followed by enum validation: a
case-insensitive lookup of the stripped value, falling back to the stripped
raw string which must then match an enum value exactly. -/
def vUrgencyNorm : Option Json → Except String Urgency
  | some (Json.str s) =>
    let normalized := pyLower (pyStrip s)
    if normalized = "high" then .ok .high
    else if normalized = "medium" then .ok .medium
    else if normalized = "low" then .ok .low
    else if normalized = "unknown" then .ok .unknown
    else
      match urgencyFromValue (pyStrip s) with
      | some u => .ok u
      | none => .error "urgency must be a valid Urgency value"
  | some _ => .error "urgency must be a string"
  | none => .error "urgency is required"

def vCategoryExact : Option Json → Except String IssueCategory
  | some (Json.str s) =>
    match categoryFromValue s with
    | some c => .ok c
    | none => .error "category must be a valid IssueCategory value"
  | some _ => .error "category must be a string"
  | none => .error "category is required"

/-- `AIFormattedIssue.normalize_category` followed by enum validation. -/
def vCategoryNorm : Option Json → Except String IssueCategory
  | some (Json.str s) =>
    let normalized := pyLower (pyStrip s)
    if normalized = "safety" then .ok .safety
    else if normalized = "plumbing" then .ok .plumbing
    else if normalized = "electrical" then .ok .electrical
    else if normalized = "hvac" then .ok .hvac
    else if normalized = "appliance" then .ok .appliance
    else if normalized = "cosmetic" then .ok .cosmetic
    else if normalized = "general" then .ok .general
    else if normalized = "unknown" then .ok .unknown
    else
      match categoryFromValue (pyStrip s) with
      | some c => .ok c
      | none => .error "category must be a valid IssueCategory value"
  | some _ => .error "category must be a string"
  | none => .error "category is required"

def vSourceReq : Option Json → Except String IssueSource
  | some (Json.str s) =>
    match sourceFromValue s with
    | some src => .ok src
    | none => .error "source must be note or photo"
  | some _ => .error "source must be a string"
  | none => .error "source is required"

/-- `IssueReport.status`: defaults to `OPEN` when absent. -/
def vStatusDefault : Option Json → Except String Status
  | none => .ok .open
  | some (Json.str s) =>
    match statusFromValue s with
    | some st => .ok st
    | none => .error "status must be a valid Status value"
  | some _ => .error "status must be a string"

/-- A `bool` field defaulting to `False` when absent. -/
def vBoolDefaultFalse : Option Json → Except String Bool
  | none => .ok false
  | some (Json.bool b) => .ok b
  | some _ => .error "needs_followup must be a boolean"

/-- A `datetime` field (see the `Datetime` model note). -/
def vDatetime : Option Json → String → Except String Datetime
  | some (Json.num q), _ =>
    if q.den = 1 then .ok q.num else .error "timestamp must be integral"
  | some _, k => .error (k ++ " must be a timestamp")
  | none, k => .error (k ++ " is required")

def collectStrs : List Json → Except String (List String)
  | [] => .ok []
  | Json.str s :: rest => do
    let tail ← collectStrs rest
    .ok (s :: tail)
  | _ :: _ => .error "list items must be strings"

/-- A `list[str]` field with a falsy-to-empty before-normalizer (entity term
lists and `AIFormattedIssue.followup_questions`): absent and `null` become `[]`. -/
def vStrListLoose : Option Json → Except String (List String)
  | none => .ok []
  | some Json.null => .ok []
  | some (Json.arr items) => collectStrs items
  | some _ => .error "must be a list of strings"

/-- A plain `list[str]` field with a list default and no normalizer
(`IssueReport.followup_questions`, `recipients`): absent becomes `[]` but
`null` is rejected. -/
def vStrListStrict : Option Json → Except String (List String)
  | none => .ok []
  | some (Json.arr items) => collectStrs items
  | some _ => .error "must be a list of strings"

def confidenceKeys : List String := ["category", "urgency"]

def vConfNum : Option Json → Except String ℚ
  | some (Json.num q) =>
    if 0 ≤ q ∧ q ≤ 1 then .ok q else .error "confidence scores must lie in [0, 1]"
  | some _ => .error "confidence values must be numbers"
  | none => .error "confidence value is required"

def vConfidence : Option Json → Except String ConfidenceScores
  | some (Json.obj fs) =>
    if fs.all (fun p => confidenceKeys.contains p.1) then do
      let c ← vConfNum (lookupField fs "category")
      let u ← vConfNum (lookupField fs "urgency")
      .ok ⟨c, u⟩
    else .error "confidence has extra fields"
  | some _ => .error "confidence must be an object"
  | none => .error "confidence is required"

def entityKeys : List String :=
  ["location_terms", "people_terms", "asset_terms", "animal_terms", "quantity_terms"]

def vEntities : Option Json → Except String ExtractedEntities
  | none => .ok emptyEntities
  | some (Json.obj fs) =>
    if fs.all (fun p => entityKeys.contains p.1) then do
      let loc ← vStrListLoose (lookupField fs "location_terms")
      let ppl ← vStrListLoose (lookupField fs "people_terms")
      let ast ← vStrListLoose (lookupField fs "asset_terms")
      let anm ← vStrListLoose (lookupField fs "animal_terms")
      let qty ← vStrListLoose (lookupField fs "quantity_terms")
      .ok ⟨normTerms loc, normTerms ppl, normTerms ast, normTerms anm, normTerms qty⟩
    else .error "extracted_entities has extra fields"
  | some _ => .error "extracted_entities must be an object"

def commentKeys : List String :=
  ["comment_id", "author_name", "author_role", "message", "created_at"]

def vComment : Json → Except String Comment
  | Json.obj fs =>
    if fs.all (fun p => commentKeys.contains p.1) then do
      let cid ← vPlainStr (lookupField fs "comment_id") "comment_id"
      let name ← vReqStrStrip (lookupField fs "author_name") "author_name" 1 80
      let role ← vReqStrStrip (lookupField fs "author_role") "author_role" 1 30
      let role ←
        if role ∈ COMMENT_AUTHOR_ROLES then Except.ok role
        else Except.error "author_role must be one of: Leasing, Maintenance, Safety, PM, Vendor, Other"
      let msg ← vReqStrStrip (lookupField fs "message") "message" 1 1000
      let ts ← vDatetime (lookupField fs "created_at") "created_at"
      .ok ⟨cid, name, role, msg, ts⟩
    else .error "comment has extra fields"
  | _ => .error "comment must be an object"

def vCommentItems : List Json → Except String (List Comment)
  | [] => .ok []
  | j :: rest => do
    let c ← vComment j
    let tail ← vCommentItems rest
    .ok (c :: tail)

def vComments : Option Json → Except String (List Comment)
  | none => .ok []
  | some (Json.arr items) => vCommentItems items
  | some _ => .error "comments must be a list"

def allowedImageMimes : List String := ["image/png", "image/jpeg", "image/jpg"]

/-- `IssueReport.validate_image_mime` (lowercase, strip, membership check). -/
def vImageMimeChecked : Option String → Except String (Option String)
  | none => .ok none
  | some m =>
    let normalized := pyStrip (pyLower m)
    if normalized ∈ allowedImageMimes then .ok (some normalized)
    else .error "image_mime must be one of image/png, image/jpeg, image/jpg."

/-- `strip_input`, the max-length constraint, then the mime check. -/
def vImageMime (v : Option Json) : Except String (Option String) := do
  let o ← vOptStrStrip v "image_mime" 50
  vImageMimeChecked o

def splitSlashGo : List Char → List Char → List String
  | [], cur => [⟨cur.reverse⟩]
  | c :: rest, cur =>
    if c = '/' then (⟨cur.reverse⟩ : String) :: splitSlashGo rest []
    else splitSlashGo rest (c :: cur)

/-- `pathlib` components of a relative POSIX path: split on slashes, dropping
empty and single-dot segments. -/
def pathParts (p : String) : List String :=
  (splitSlashGo p.data []).filter (fun s => !(s == "") && !(s == "."))

def pathIsAbsolute (p : String) : Bool :=
  match p.data with
  | c :: _ => c = '/'
  | [] => false

/-- `IssueReport.validate_image_path` (reject absolute paths and `..`
components). -/
def vImagePathChecked : Option String → Except String (Option String)
  | none => .ok none
  | some p =>
    if pathIsAbsolute p || (pathParts p).contains ".." then
      .error "image_path must be a safe relative path."
    else .ok (some p)

/-- `strip_input`, the max-length constraint, then the path check. -/
def vImagePath (v : Option Json) : Except String (Option String) := do
  let o ← vOptStrStrip v "image_path" 500
  vImagePathChecked o

/-- `AIFormattedIssue.validate_followup_consistency` (`model_validator`,
`mode="after"`). -/
def validateFollowupConsistency (a : AIFormattedIssue) : Except String AIFormattedIssue :=
  if a.needs_followup ∧ a.followup_questions = [] then
    .error "followup_questions must be provided when needs_followup is true."
  else .ok a

def aiIssueKeys : List String :=
  ["issue", "reported_observation", "urgency", "category", "recommended_action",
   "extracted_entities", "confidence", "needs_followup", "followup_questions",
   "photo_observation"]

/-- `AIFormattedIssue.model_validate` on a decoded JSON object
(`extra="forbid"`, the before-validators, the field constraints, then the
after-model validator). -/
def modelValidateAIFormattedIssue (fs : List (String × Json)) : Except String AIFormattedIssue :=
  if fs.all (fun p => aiIssueKeys.contains p.1) then do
    let iss ← vReqTextAI (lookupField fs "issue") "issue" 3 500
    let rep ← vReqTextAI (lookupField fs "reported_observation") "reported_observation" 3 1000
    let urg ← vUrgencyNorm (lookupField fs "urgency")
    let cat ← vCategoryNorm (lookupField fs "category")
    let act ← vReqTextAI (lookupField fs "recommended_action") "recommended_action" 3 1200
    let ents ← vEntities (lookupField fs "extracted_entities")
    let conf ← vConfidence (lookupField fs "confidence")
    let needsF ← vBoolDefaultFalse (lookupField fs "needs_followup")
    let fqsRaw ← vStrListLoose (lookupField fs "followup_questions")
    let po ← vOptStrStrip (lookupField fs "photo_observation") "photo_observation" 500
    validateFollowupConsistency
      ⟨iss, rep, urg, cat, act, ents, conf, needsF, normTerms fqsRaw, po⟩
  else .error "unexpected field in AI issue payload"

def issueReportKeys : List String :=
  ["report_id", "source", "property_name", "building", "unit_number", "area",
   "note_text", "image_filename", "image_path", "image_mime", "raw_observations",
   "reported_observation", "issue", "urgency", "category", "recommended_action",
   "extracted_entities", "confidence", "needs_followup", "followup_questions",
   "photo_observation", "status", "comments", "recipients", "created_at",
   "updated_at"]

/-- `IssueReport.model_validate` on a decoded JSON object.  The `report_id`,
`comment_id`, `created_at` and `updated_at` default factories draw on the
wall clock and the UUID generator; every line the store writes carries all of
them, so absent values are modeled as invalid rather than regenerated.
`validate_comment_timestamps` is a no-op (a datetime is always truthy). -/
def parseIssueReport (fs : List (String × Json)) : Except String IssueReport :=
  if fs.all (fun p => issueReportKeys.contains p.1) then do
    let rid ← vPlainStr (lookupField fs "report_id") "report_id"
    let src ← vSourceReq (lookupField fs "source")
    let pn ← vReqStrStrip (lookupField fs "property_name") "property_name" 1 120
    let bld ← vReqStrStrip (lookupField fs "building") "building" 1 120
    let un ← vReqStrStrip (lookupField fs "unit_number") "unit_number" 1 30
    let area ← vOptStrStrip (lookupField fs "area") "area" 120
    let note ← vOptStrStrip (lookupField fs "note_text") "note_text" 3000
    let imgFn ← vOptStrStrip (lookupField fs "image_filename") "image_filename" 255
    let imgPath ← vImagePath (lookupField fs "image_path")
    let imgMime ← vImageMime (lookupField fs "image_mime")
    let rawObs ← vReqStrStrip (lookupField fs "raw_observations") "raw_observations" 1 4000
    let repObs ← vReqStrStrip (lookupField fs "reported_observation") "reported_observation" 3 1000
    let iss ← vReqStrStrip (lookupField fs "issue") "issue" 3 500
    let urg ← vUrgencyExact (lookupField fs "urgency")
    let cat ← vCategoryExact (lookupField fs "category")
    let act ← vReqStrStrip (lookupField fs "recommended_action") "recommended_action" 3 1200
    let ents ← vEntities (lookupField fs "extracted_entities")
    let conf ← vConfidence (lookupField fs "confidence")
    let needsF ← vBoolDefaultFalse (lookupField fs "needs_followup")
    let fqs ← vStrListStrict (lookupField fs "followup_questions")
    let po ← vOptStrStrip (lookupField fs "photo_observation") "photo_observation" 500
    let st ← vStatusDefault (lookupField fs "status")
    let cms ← vComments (lookupField fs "comments")
    let rcp ← vStrListStrict (lookupField fs "recipients")
    let ca ← vDatetime (lookupField fs "created_at") "created_at"
    let ua ← vDatetime (lookupField fs "updated_at") "updated_at"
    .ok ⟨rid, src, pn, bld, un, area, note, imgFn, imgPath, imgMime, rawObs, repObs,
         iss, urg, cat, act, ents, conf, needsF, fqs, po, st, cms, rcp, ca, ua⟩
  else .error "unexpected field in issue report"

/-! Serialization: `model_dump(mode="json", exclude_none=False)`, in declared
field order, followed by the `_serialize_issue_entry` wrapper. -/

def jsonOfOptStr : Option String → Json
  | none => Json.null
  | some s => Json.str s

def serializeEntities (e : ExtractedEntities) : Json :=
  Json.obj [
    ("location_terms", Json.arr (e.location_terms.map Json.str)),
    ("people_terms", Json.arr (e.people_terms.map Json.str)),
    ("asset_terms", Json.arr (e.asset_terms.map Json.str)),
    ("animal_terms", Json.arr (e.animal_terms.map Json.str)),
    ("quantity_terms", Json.arr (e.quantity_terms.map Json.str))]

def serializeConfidence (c : ConfidenceScores) : Json :=
  Json.obj [("category", Json.num c.category), ("urgency", Json.num c.urgency)]

def serializeComment (c : Comment) : Json :=
  Json.obj [
    ("comment_id", Json.str c.comment_id),
    ("author_name", Json.str c.author_name),
    ("author_role", Json.str c.author_role),
    ("message", Json.str c.message),
    ("created_at", Json.num (c.created_at : ℚ))]

def issueReportFields (r : IssueReport) : List (String × Json) :=
  [("report_id", Json.str r.report_id),
   ("source", Json.str (sourceValue r.source)),
   ("property_name", Json.str r.property_name),
   ("building", Json.str r.building),
   ("unit_number", Json.str r.unit_number),
   ("area", jsonOfOptStr r.area),
   ("note_text", jsonOfOptStr r.note_text),
   ("image_filename", jsonOfOptStr r.image_filename),
   ("image_path", jsonOfOptStr r.image_path),
   ("image_mime", jsonOfOptStr r.image_mime),
   ("raw_observations", Json.str r.raw_observations),
   ("reported_observation", Json.str r.reported_observation),
   ("issue", Json.str r.issue),
   ("urgency", Json.str (urgencyValue r.urgency)),
   ("category", Json.str (categoryValue r.category)),
   ("recommended_action", Json.str r.recommended_action),
   ("extracted_entities", serializeEntities r.extracted_entities),
   ("confidence", serializeConfidence r.confidence),
   ("needs_followup", Json.bool r.needs_followup),
   ("followup_questions", Json.arr (r.followup_questions.map Json.str)),
   ("photo_observation", jsonOfOptStr r.photo_observation),
   ("status", Json.str (statusValue r.status)),
   ("comments", Json.arr (r.comments.map serializeComment)),
   ("recipients", Json.arr (r.recipients.map Json.str)),
   ("created_at", Json.num (r.created_at : ℚ)),
   ("updated_at", Json.num (r.updated_at : ℚ))]

def serializeIssueReport (r : IssueReport) : Json := Json.obj (issueReportFields r)

/-- `JsonlIssueRepository._serialize_issue_entry`. -/
def serializeIssueEntry (r : IssueReport) : Json :=
  Json.obj [
    ("entry_type", Json.str "issue_report"),
    ("created_at", Json.num (r.created_at : ℚ)),
    ("payload", serializeIssueReport r)]

/-! Well-formedness: the invariants that `IssueReport.model_validate`
guarantees of its output, stated on the typed value. -/

def wfReqStr (s : String) (minL maxL : Nat) : Bool :=
  (pyStrip s == s) && decide (1 ≤ s.length) && decide (minL ≤ s.length) &&
    decide (s.length ≤ maxL)

def wfOptStr : Option String → Nat → Bool
  | none, _ => true
  | some s, maxL => (pyStrip s == s) && decide (1 ≤ s.length) && decide (s.length ≤ maxL)

def wfTermList (l : List String) : Bool :=
  l.all (fun s => (pyStrip s == s) && !(s == "")) && nodupB l

def wfEntities (e : ExtractedEntities) : Bool :=
  wfTermList e.location_terms && wfTermList e.people_terms && wfTermList e.asset_terms &&
    wfTermList e.animal_terms && wfTermList e.quantity_terms

def wfConfidence (c : ConfidenceScores) : Bool :=
  decide (0 ≤ c.category) && decide (c.category ≤ 1) && decide (0 ≤ c.urgency) &&
    decide (c.urgency ≤ 1)

def wfComment (c : Comment) : Bool :=
  wfReqStr c.author_name 1 80 && wfReqStr c.author_role 1 30 &&
    COMMENT_AUTHOR_ROLES.contains c.author_role && wfReqStr c.message 1 1000

def wfImagePath : Option String → Bool
  | none => true
  | some p => wfOptStr (some p) 500 && !(pathIsAbsolute p) && !((pathParts p).contains "..")

def wfImageMime : Option String → Bool
  | none => true
  | some m => allowedImageMimes.contains m

theorem ok_bind {ε α β : Type} (a : α) (f : α → Except ε β) :
    ((Except.ok a : Except ε α) >>= f) = f a := rfl

def wfIssueReport (r : IssueReport) : Bool :=
  wfReqStr r.property_name 1 120 && wfReqStr r.building 1 120 &&
    wfReqStr r.unit_number 1 30 && wfOptStr r.area 120 && wfOptStr r.note_text 3000 &&
    wfOptStr r.image_filename 255 && wfImagePath r.image_path &&
    wfImageMime r.image_mime && wfReqStr r.raw_observations 1 4000 &&
    wfReqStr r.reported_observation 3 1000 && wfReqStr r.issue 3 500 &&
    wfReqStr r.recommended_action 3 1200 && wfEntities r.extracted_entities &&
    wfConfidence r.confidence && wfOptStr r.photo_observation 500 &&
    r.comments.all wfComment

/-! Round-trip lemmas: each field parser is the identity on a field the
validator itself produced. -/

theorem wfReqStr_props {s : String} {minL maxL : Nat} (h : wfReqStr s minL maxL = true) :
    pyStrip s = s ∧ s ≠ "" ∧ minL ≤ s.length ∧ s.length ≤ maxL := by
  simp only [wfReqStr, Bool.and_eq_true, and_assoc, beq_iff_eq, decide_eq_true_eq] at h
  exact ⟨h.1, ne_empty_of_one_le_length h.2.1, h.2.2.1, h.2.2.2⟩

theorem wfOptStr_props {s : String} {maxL : Nat} (h : wfOptStr (some s) maxL = true) :
    pyStrip s = s ∧ s ≠ "" ∧ s.length ≤ maxL := by
  simp only [wfOptStr, Bool.and_eq_true, and_assoc, beq_iff_eq, decide_eq_true_eq] at h
  exact ⟨h.1, ne_empty_of_one_le_length h.2.1, h.2.2⟩

theorem vReqStrStrip_ok (s k : String) (minL maxL : Nat) (hstrip : pyStrip s = s)
    (hne : s ≠ "") (hmin : minL ≤ s.length) (hmax : s.length ≤ maxL) :
    vReqStrStrip (some (Json.str s)) k minL maxL = .ok s := by
  show (if pyStrip s = "" then (Except.error (k ++ " must not be empty") : Except String String)
    else if minL ≤ (pyStrip s).length ∧ (pyStrip s).length ≤ maxL then Except.ok (pyStrip s)
    else Except.error (k ++ " length out of range")) = Except.ok s
  rw [hstrip, if_neg hne, if_pos ⟨hmin, hmax⟩]

theorem vReqStrStrip_ok_wf (s k : String) (minL maxL : Nat)
    (h : wfReqStr s minL maxL = true) :
    vReqStrStrip (some (Json.str s)) k minL maxL = .ok s := by
  obtain ⟨h1, h2, h3, h4⟩ := wfReqStr_props h
  exact vReqStrStrip_ok s k minL maxL h1 h2 h3 h4

theorem vOptStrStrip_ok_wf (o : Option String) (k : String) (maxL : Nat)
    (h : wfOptStr o maxL = true) :
    vOptStrStrip (some (jsonOfOptStr o)) k maxL = .ok o := by
  cases o with
  | none => rfl
  | some s =>
    obtain ⟨h1, h2, h3⟩ := wfOptStr_props h
    show (if pyStrip s = "" then (Except.ok none : Except String (Option String))
      else if (pyStrip s).length ≤ maxL then Except.ok (some (pyStrip s))
      else Except.error (k ++ " length out of range")) = Except.ok (some s)
    rw [h1, if_neg h2, if_pos h3]

theorem vImagePath_ok_wf (o : Option String) (h : wfImagePath o = true) :
    vImagePath (some (jsonOfOptStr o)) = .ok o := by
  cases o with
  | none => rfl
  | some p =>
    simp only [wfImagePath, Bool.and_eq_true, and_assoc, Bool.not_eq_true'] at h
    obtain ⟨hopt, habs, hdots⟩ := h
    unfold vImagePath
    rw [vOptStrStrip_ok_wf (some p) "image_path" 500 hopt]
    rw [ok_bind]
    simp only [vImagePathChecked]
    rw [habs, hdots]
    rfl

theorem vImageMime_ok_wf (o : Option String) (h : wfImageMime o = true) :
    vImageMime (some (jsonOfOptStr o)) = .ok o := by
  cases o with
  | none => rfl
  | some m =>
    have hmem : m = "image/png" ∨ m = "image/jpeg" ∨ m = "image/jpg" := by
      simpa [wfImageMime, allowedImageMimes] using h
    rcases hmem with rfl | rfl | rfl <;> rfl

theorem vUrgencyExact_rt (u : Urgency) :
    vUrgencyExact (some (Json.str (urgencyValue u))) = .ok u := by
  cases u <;> rfl

theorem vCategoryExact_rt (c : IssueCategory) :
    vCategoryExact (some (Json.str (categoryValue c))) = .ok c := by
  cases c <;> rfl

theorem vSourceReq_rt (s : IssueSource) :
    vSourceReq (some (Json.str (sourceValue s))) = .ok s := by
  cases s <;> rfl

theorem vStatusDefault_rt (s : Status) :
    vStatusDefault (some (Json.str (statusValue s))) = .ok s := by
  cases s <;> rfl

theorem vDatetime_rt (n : Datetime) (k : String) :
    vDatetime (some (Json.num (n : ℚ))) k = .ok n := by
  show (if ((n : ℚ)).den = 1 then (Except.ok ((n : ℚ)).num : Except String Datetime)
    else Except.error "timestamp must be integral") = Except.ok n
  rw [if_pos (Rat.den_intCast n)]
  simp

theorem vConfidence_rt (c : ConfidenceScores) (h : wfConfidence c = true) :
    vConfidence (some (serializeConfidence c)) = .ok c := by
  simp only [wfConfidence, Bool.and_eq_true, and_assoc, decide_eq_true_eq] at h
  obtain ⟨h1, h2, h3, h4⟩ := h
  have e1 : vConfNum (some (Json.num c.category)) = .ok c.category := by
    show (if 0 ≤ c.category ∧ c.category ≤ 1 then (Except.ok c.category : Except String ℚ)
      else Except.error "confidence scores must lie in [0, 1]") = Except.ok c.category
    rw [if_pos ⟨h1, h2⟩]
  have e2 : vConfNum (some (Json.num c.urgency)) = .ok c.urgency := by
    show (if 0 ≤ c.urgency ∧ c.urgency ≤ 1 then (Except.ok c.urgency : Except String ℚ)
      else Except.error "confidence scores must lie in [0, 1]") = Except.ok c.urgency
    rw [if_pos ⟨h3, h4⟩]
  show (do
    let cv ← vConfNum (some (Json.num c.category))
    let uv ← vConfNum (some (Json.num c.urgency))
    (Except.ok ⟨cv, uv⟩ : Except String ConfidenceScores)) = Except.ok c
  simp only [e1, e2, ok_bind]

theorem collectStrs_map (l : List String) : collectStrs (l.map Json.str) = .ok l := by
  induction l with
  | nil => rfl
  | cons x xs ih =>
    show (do
      let tail ← collectStrs (xs.map Json.str)
      (Except.ok (x :: tail) : Except String (List String))) = Except.ok (x :: xs)
    rw [ih, ok_bind]

theorem wfTermList_props {l : List String} (h : wfTermList l = true) :
    (∀ s ∈ l, pyStrip s = s ∧ s ≠ "") ∧ l.Nodup := by
  simp only [wfTermList, Bool.and_eq_true] at h
  constructor
  · intro s hs
    have := List.all_eq_true.mp h.1 s hs
    simp only [Bool.and_eq_true, beq_iff_eq, Bool.not_eq_true'] at this
    exact ⟨this.1, by simpa using this.2⟩
  · have : nodupB l = true := h.2
    clear h
    induction l with
    | nil => exact List.nodup_nil
    | cons x xs ih =>
      simp only [nodupB, Bool.and_eq_true, Bool.not_eq_true'] at this
      refine List.nodup_cons.mpr ⟨?_, ih this.2⟩
      intro hmem
      have hc := this.1
      rw [List.contains_eq_any_beq] at hc
      have hx := List.any_eq_false.mp hc x hmem
      simp at hx

theorem normTerms_fixed_wf (l : List String) (h : wfTermList l = true) :
    normTerms l = l := by
  obtain ⟨h1, h2⟩ := wfTermList_props h
  exact normTerms_fixed l h1 h2

theorem vStrListLoose_rt (l : List String) :
    vStrListLoose (some (Json.arr (l.map Json.str))) = .ok l := collectStrs_map l

theorem vStrListStrict_rt (l : List String) :
    vStrListStrict (some (Json.arr (l.map Json.str))) = .ok l := collectStrs_map l

theorem vEntities_rt (e : ExtractedEntities) (h : wfEntities e = true) :
    vEntities (some (serializeEntities e)) = .ok e := by
  simp only [wfEntities, Bool.and_eq_true, and_assoc] at h
  obtain ⟨h1, h2, h3, h4, h5⟩ := h
  show (do
    let loc ← vStrListLoose (some (Json.arr (e.location_terms.map Json.str)))
    let ppl ← vStrListLoose (some (Json.arr (e.people_terms.map Json.str)))
    let ast ← vStrListLoose (some (Json.arr (e.asset_terms.map Json.str)))
    let anm ← vStrListLoose (some (Json.arr (e.animal_terms.map Json.str)))
    let qty ← vStrListLoose (some (Json.arr (e.quantity_terms.map Json.str)))
    (Except.ok ⟨normTerms loc, normTerms ppl, normTerms ast, normTerms anm, normTerms qty⟩ :
      Except String ExtractedEntities)) = Except.ok e
  rw [vStrListLoose_rt, ok_bind, vStrListLoose_rt, ok_bind, vStrListLoose_rt, ok_bind,
    vStrListLoose_rt, ok_bind, vStrListLoose_rt, ok_bind]
  rw [normTerms_fixed_wf _ h1, normTerms_fixed_wf _ h2, normTerms_fixed_wf _ h3,
    normTerms_fixed_wf _ h4, normTerms_fixed_wf _ h5]

theorem wfComment_props {c : Comment} (h : wfComment c = true) :
    wfReqStr c.author_name 1 80 = true ∧ wfReqStr c.author_role 1 30 = true ∧
    c.author_role ∈ COMMENT_AUTHOR_ROLES ∧ wfReqStr c.message 1 1000 = true := by
  simp only [wfComment, Bool.and_eq_true, and_assoc] at h
  refine ⟨h.1, h.2.1, ?_, h.2.2.2⟩
  have hc := h.2.2.1
  rw [List.contains_eq_any_beq] at hc
  obtain ⟨y, hy, hxy⟩ := List.any_eq_true.mp hc
  have : c.author_role = y := by simpa using hxy
  rw [this]
  exact hy

theorem vComment_rt (c : Comment) (h : wfComment c = true) :
    vComment (serializeComment c) = .ok c := by
  obtain ⟨hn, hr, hmem, hm⟩ := wfComment_props h
  show (do
    let cid ← vPlainStr (some (Json.str c.comment_id)) "comment_id"
    let name ← vReqStrStrip (some (Json.str c.author_name)) "author_name" 1 80
    let role ← vReqStrStrip (some (Json.str c.author_role)) "author_role" 1 30
    let role ←
      if role ∈ COMMENT_AUTHOR_ROLES then Except.ok role
      else Except.error "author_role must be one of: Leasing, Maintenance, Safety, PM, Vendor, Other"
    let msg ← vReqStrStrip (some (Json.str c.message)) "message" 1 1000
    let ts ← vDatetime (some (Json.num (c.created_at : ℚ))) "created_at"
    (Except.ok ⟨cid, name, role, msg, ts⟩ : Except String Comment)) = Except.ok c
  simp only [show vPlainStr (some (Json.str c.comment_id)) "comment_id" =
    Except.ok c.comment_id from rfl, vReqStrStrip_ok_wf _ _ _ _ hn,
    vReqStrStrip_ok_wf _ _ _ _ hr, vReqStrStrip_ok_wf _ _ _ _ hm, vDatetime_rt,
    if_pos hmem, ok_bind]

theorem vCommentItems_rt (cs : List Comment) (h : cs.all wfComment = true) :
    vCommentItems (cs.map serializeComment) = .ok cs := by
  induction cs with
  | nil => rfl
  | cons c rest ih =>
    simp only [List.all_cons, Bool.and_eq_true] at h
    show (do
      let x ← vComment (serializeComment c)
      let tail ← vCommentItems (rest.map serializeComment)
      (Except.ok (x :: tail) : Except String (List Comment))) = Except.ok (c :: rest)
    rw [vComment_rt c h.1, ok_bind, ih h.2, ok_bind]

theorem vComments_rt (cs : List Comment) (h : cs.all wfComment = true) :
    vComments (some (Json.arr (cs.map serializeComment))) = .ok cs :=
  vCommentItems_rt cs h

theorem wfIssueReport_props {r : IssueReport} (h : wfIssueReport r = true) :
    wfReqStr r.property_name 1 120 = true ∧ wfReqStr r.building 1 120 = true ∧
    wfReqStr r.unit_number 1 30 = true ∧ wfOptStr r.area 120 = true ∧
    wfOptStr r.note_text 3000 = true ∧ wfOptStr r.image_filename 255 = true ∧
    wfImagePath r.image_path = true ∧ wfImageMime r.image_mime = true ∧
    wfReqStr r.raw_observations 1 4000 = true ∧
    wfReqStr r.reported_observation 3 1000 = true ∧ wfReqStr r.issue 3 500 = true ∧
    wfReqStr r.recommended_action 3 1200 = true ∧ wfEntities r.extracted_entities = true ∧
    wfConfidence r.confidence = true ∧ wfOptStr r.photo_observation 500 = true ∧
    r.comments.all wfComment = true := by
  simpa only [wfIssueReport, Bool.and_eq_true, and_assoc] using h

/-- Serialization followed by validation is the identity on validated issue
reports (`model_validate` after `model_dump` restores the record verbatim). -/
theorem parseIssueReport_roundtrip (r : IssueReport) (h : wfIssueReport r = true) :
    parseIssueReport (issueReportFields r) = .ok r := by
  obtain ⟨h1, h2, h3, h4, h5, h6, h7, h8, h9, h10, h11, h12, h13, h14, h15, h16⟩ :=
    wfIssueReport_props h
  show (do
    let rid ← vPlainStr (some (Json.str r.report_id)) "report_id"
    let src ← vSourceReq (some (Json.str (sourceValue r.source)))
    let pn ← vReqStrStrip (some (Json.str r.property_name)) "property_name" 1 120
    let bld ← vReqStrStrip (some (Json.str r.building)) "building" 1 120
    let un ← vReqStrStrip (some (Json.str r.unit_number)) "unit_number" 1 30
    let area ← vOptStrStrip (some (jsonOfOptStr r.area)) "area" 120
    let note ← vOptStrStrip (some (jsonOfOptStr r.note_text)) "note_text" 3000
    let imgFn ← vOptStrStrip (some (jsonOfOptStr r.image_filename)) "image_filename" 255
    let imgPath ← vImagePath (some (jsonOfOptStr r.image_path))
    let imgMime ← vImageMime (some (jsonOfOptStr r.image_mime))
    let rawObs ← vReqStrStrip (some (Json.str r.raw_observations)) "raw_observations" 1 4000
    let repObs ← vReqStrStrip (some (Json.str r.reported_observation)) "reported_observation" 3 1000
    let iss ← vReqStrStrip (some (Json.str r.issue)) "issue" 3 500
    let urg ← vUrgencyExact (some (Json.str (urgencyValue r.urgency)))
    let cat ← vCategoryExact (some (Json.str (categoryValue r.category)))
    let act ← vReqStrStrip (some (Json.str r.recommended_action)) "recommended_action" 3 1200
    let ents ← vEntities (some (serializeEntities r.extracted_entities))
    let conf ← vConfidence (some (serializeConfidence r.confidence))
    let needsF ← vBoolDefaultFalse (some (Json.bool r.needs_followup))
    let fqs ← vStrListStrict (some (Json.arr (r.followup_questions.map Json.str)))
    let po ← vOptStrStrip (some (jsonOfOptStr r.photo_observation)) "photo_observation" 500
    let st ← vStatusDefault (some (Json.str (statusValue r.status)))
    let cms ← vComments (some (Json.arr (r.comments.map serializeComment)))
    let rcp ← vStrListStrict (some (Json.arr (r.recipients.map Json.str)))
    let ca ← vDatetime (some (Json.num (r.created_at : ℚ))) "created_at"
    let ua ← vDatetime (some (Json.num (r.updated_at : ℚ))) "updated_at"
    (Except.ok ⟨rid, src, pn, bld, un, area, note, imgFn, imgPath, imgMime, rawObs, repObs,
      iss, urg, cat, act, ents, conf, needsF, fqs, po, st, cms, rcp, ca, ua⟩ :
      Except String IssueReport)) = Except.ok r
  simp only [show vPlainStr (some (Json.str r.report_id)) "report_id" =
    Except.ok r.report_id from rfl, vSourceReq_rt,
    vReqStrStrip_ok_wf _ _ _ _ h1, vReqStrStrip_ok_wf _ _ _ _ h2,
    vReqStrStrip_ok_wf _ _ _ _ h3, vOptStrStrip_ok_wf _ _ _ h4,
    vOptStrStrip_ok_wf _ _ _ h5, vOptStrStrip_ok_wf _ _ _ h6,
    vImagePath_ok_wf _ h7, vImageMime_ok_wf _ h8, vReqStrStrip_ok_wf _ _ _ _ h9,
    vReqStrStrip_ok_wf _ _ _ _ h10, vReqStrStrip_ok_wf _ _ _ _ h11,
    vUrgencyExact_rt, vCategoryExact_rt, vReqStrStrip_ok_wf _ _ _ _ h12,
    vEntities_rt _ h13, vConfidence_rt _ h14,
    show vBoolDefaultFalse (some (Json.bool r.needs_followup)) =
      Except.ok r.needs_followup from rfl,
    vStrListStrict_rt, vOptStrStrip_ok_wf _ _ _ h15, vStatusDefault_rt,
    vComments_rt _ h16, vDatetime_rt, ok_bind]

/-! Inversion: every value the validator accepts satisfies the
well-formedness invariants. -/

theorem err_bind {ε α β : Type} (e : ε) (f : α → Except ε β) :
    ((Except.error e : Except ε α) >>= f) = Except.error e := rfl

theorem one_le_length_of_ne_empty {s : String} (h : s ≠ "") : 1 ≤ s.length := by
  cases s with
  | mk data =>
    cases data with
    | nil => exact absurd rfl h
    | cons c cs => simp [String.length]

theorem wfReqStr_of (s : String) (minL maxL : Nat) (hstrip : pyStrip s = s)
    (hne : s ≠ "") (hmin : minL ≤ s.length) (hmax : s.length ≤ maxL) :
    wfReqStr s minL maxL = true := by
  simp only [wfReqStr, Bool.and_eq_true, and_assoc, beq_iff_eq, decide_eq_true_eq]
  exact ⟨hstrip, one_le_length_of_ne_empty hne, hmin, hmax⟩

theorem vReqStrStrip_wf {v : Option Json} {k : String} {minL maxL : Nat} {t : String}
    (h : vReqStrStrip v k minL maxL = .ok t) : wfReqStr t minL maxL = true := by
  cases v with
  | none => simp [vReqStrStrip] at h
  | some j =>
    cases j with
    | str s =>
      simp only [vReqStrStrip] at h
      by_cases he : pyStrip s = ""
      · rw [if_pos he] at h; cases h
      · rw [if_neg he] at h
        by_cases hb : minL ≤ (pyStrip s).length ∧ (pyStrip s).length ≤ maxL
        · rw [if_pos hb] at h
          injection h with h
          subst h
          exact wfReqStr_of _ _ _ (pyStrip_idem s) he hb.1 hb.2
        · rw [if_neg hb] at h; cases h
    | null => simp [vReqStrStrip] at h
    | bool b => simp [vReqStrStrip] at h
    | num q => simp [vReqStrStrip] at h
    | arr a => simp [vReqStrStrip] at h
    | obj o => simp [vReqStrStrip] at h

theorem vOptStrStrip_wf {v : Option Json} {k : String} {maxL : Nat} {o : Option String}
    (h : vOptStrStrip v k maxL = .ok o) : wfOptStr o maxL = true := by
  cases v with
  | none => injection h with h; subst h; rfl
  | some j =>
    cases j with
    | str s =>
      simp only [vOptStrStrip] at h
      by_cases he : pyStrip s = ""
      · rw [if_pos he] at h; injection h with h; subst h; rfl
      · rw [if_neg he] at h
        by_cases hb : (pyStrip s).length ≤ maxL
        · rw [if_pos hb] at h
          injection h with h
          subst h
          simp only [wfOptStr, Bool.and_eq_true, and_assoc, beq_iff_eq, decide_eq_true_eq]
          exact ⟨pyStrip_idem s, one_le_length_of_ne_empty he, hb⟩
        · rw [if_neg hb] at h; cases h
    | null => injection h with h; subst h; rfl
    | bool b => simp [vOptStrStrip] at h
    | num q => simp [vOptStrStrip] at h
    | arr a => simp [vOptStrStrip] at h
    | obj o2 => simp [vOptStrStrip] at h

theorem vImagePath_wf {v : Option Json} {o : Option String}
    (h : vImagePath v = .ok o) : wfImagePath o = true := by
  unfold vImagePath at h
  cases e1 : vOptStrStrip v "image_path" 500 with
  | error e => simp only [e1, err_bind] at h; cases h
  | ok o1 =>
    simp only [e1, ok_bind] at h
    cases o1 with
    | none => simp only [vImagePathChecked] at h; injection h with h; subst h; rfl
    | some p =>
      simp only [vImagePathChecked] at h
      by_cases hc : (pathIsAbsolute p || (pathParts p).contains "..") = true
      · rw [if_pos hc] at h; cases h
      · rw [if_neg hc] at h
        injection h with h
        subst h
        simp only [Bool.or_eq_true, not_or, Bool.not_eq_true] at hc
        simp only [wfImagePath, Bool.and_eq_true, and_assoc, Bool.not_eq_true']
        exact ⟨vOptStrStrip_wf e1, hc.1, hc.2⟩

theorem vImageMime_wf {v : Option Json} {o : Option String}
    (h : vImageMime v = .ok o) : wfImageMime o = true := by
  unfold vImageMime at h
  cases e1 : vOptStrStrip v "image_mime" 50 with
  | error e => simp only [e1, err_bind] at h; cases h
  | ok o1 =>
    simp only [e1, ok_bind] at h
    cases o1 with
    | none => simp only [vImageMimeChecked] at h; injection h with h; subst h; rfl
    | some m =>
      simp only [vImageMimeChecked] at h
      by_cases hc : pyStrip (pyLower m) ∈ allowedImageMimes
      · rw [if_pos hc] at h
        injection h with h
        subst h
        simp only [wfImageMime]
        rw [List.contains_eq_any_beq]
        rw [List.any_eq_true]
        exact ⟨_, hc, by simp⟩
      · rw [if_neg hc] at h; cases h

theorem wfTermList_of {l : List String} (h1 : ∀ s ∈ l, pyStrip s = s ∧ s ≠ "")
    (h2 : l.Nodup) : wfTermList l = true := by
  simp only [wfTermList, Bool.and_eq_true]
  constructor
  · rw [List.all_eq_true]
    intro s hs
    obtain ⟨ha, hb⟩ := h1 s hs
    simp only [Bool.and_eq_true, beq_iff_eq, Bool.not_eq_true']
    exact ⟨ha, by simpa using hb⟩
  · clear h1
    induction l with
    | nil => rfl
    | cons x xs ih =>
      rw [List.nodup_cons] at h2
      simp only [nodupB, Bool.and_eq_true, Bool.not_eq_true']
      refine ⟨?_, ih h2.2⟩
      rw [List.contains_eq_any_beq]
      rw [List.any_eq_false]
      intro y hy
      rw [beq_iff_eq]
      intro hxy
      subst hxy
      exact h2.1 hy

theorem normTerms_wfTermList (l : List String) : wfTermList (normTerms l) = true :=
  wfTermList_of (normTerms_wf l).1 (normTerms_wf l).2

theorem vEntities_wf {v : Option Json} {e : ExtractedEntities}
    (h : vEntities v = .ok e) : wfEntities e = true := by
  cases v with
  | none =>
    injection h with h
    subst h
    rfl
  | some j =>
    cases j with
    | obj fs =>
      simp only [vEntities] at h
      by_cases hk : fs.all (fun p => entityKeys.contains p.1) = true
      · rw [if_pos hk] at h
        cases e1 : vStrListLoose (lookupField fs "location_terms") with
        | error e2 => simp only [e1, err_bind] at h; cases h
        | ok loc =>
        simp only [e1, ok_bind] at h
        cases e2 : vStrListLoose (lookupField fs "people_terms") with
        | error e3 => simp only [e2, err_bind] at h; cases h
        | ok ppl =>
        simp only [e2, ok_bind] at h
        cases e3 : vStrListLoose (lookupField fs "asset_terms") with
        | error e4 => simp only [e3, err_bind] at h; cases h
        | ok ast =>
        simp only [e3, ok_bind] at h
        cases e4 : vStrListLoose (lookupField fs "animal_terms") with
        | error e5 => simp only [e4, err_bind] at h; cases h
        | ok anm =>
        simp only [e4, ok_bind] at h
        cases e5 : vStrListLoose (lookupField fs "quantity_terms") with
        | error e6 => simp only [e5, err_bind] at h; cases h
        | ok qty =>
        simp only [e5, ok_bind] at h
        injection h with h
        subst h
        simp only [wfEntities, Bool.and_eq_true, and_assoc]
        exact ⟨normTerms_wfTermList loc, normTerms_wfTermList ppl, normTerms_wfTermList ast,
          normTerms_wfTermList anm, normTerms_wfTermList qty⟩
      · rw [if_neg hk] at h; cases h
    | null => simp [vEntities] at h
    | bool b => simp [vEntities] at h
    | num q => simp [vEntities] at h
    | str s => simp [vEntities] at h
    | arr a => simp [vEntities] at h

theorem vConfNum_wf {v : Option Json} {q : ℚ} (h : vConfNum v = .ok q) :
    0 ≤ q ∧ q ≤ 1 := by
  cases v with
  | none => simp [vConfNum] at h
  | some j =>
    cases j with
    | num q2 =>
      simp only [vConfNum] at h
      by_cases hb : 0 ≤ q2 ∧ q2 ≤ 1
      · rw [if_pos hb] at h; injection h with h; subst h; exact hb
      · rw [if_neg hb] at h; cases h
    | null => simp [vConfNum] at h
    | bool b => simp [vConfNum] at h
    | str s => simp [vConfNum] at h
    | arr a => simp [vConfNum] at h
    | obj o => simp [vConfNum] at h

theorem vConfidence_wf {v : Option Json} {c : ConfidenceScores}
    (h : vConfidence v = .ok c) : wfConfidence c = true := by
  cases v with
  | none => simp [vConfidence] at h
  | some j =>
    cases j with
    | obj fs =>
      simp only [vConfidence] at h
      by_cases hk : fs.all (fun p => confidenceKeys.contains p.1) = true
      · rw [if_pos hk] at h
        cases e1 : vConfNum (lookupField fs "category") with
        | error e => simp only [e1, err_bind] at h; cases h
        | ok cv =>
        simp only [e1, ok_bind] at h
        cases e2 : vConfNum (lookupField fs "urgency") with
        | error e => simp only [e2, err_bind] at h; cases h
        | ok uv =>
        simp only [e2, ok_bind] at h
        injection h with h
        subst h
        obtain ⟨a1, a2⟩ := vConfNum_wf e1
        obtain ⟨a3, a4⟩ := vConfNum_wf e2
        simp only [wfConfidence, Bool.and_eq_true, and_assoc, decide_eq_true_eq]
        exact ⟨a1, a2, a3, a4⟩
      · rw [if_neg hk] at h; cases h
    | null => simp [vConfidence] at h
    | bool b => simp [vConfidence] at h
    | num q => simp [vConfidence] at h
    | str s => simp [vConfidence] at h
    | arr a => simp [vConfidence] at h

theorem vComment_wf {j : Json} {c : Comment} (h : vComment j = .ok c) :
    wfComment c = true := by
  cases j with
  | obj fs =>
    simp only [vComment] at h
    by_cases hk : fs.all (fun p => commentKeys.contains p.1) = true
    · rw [if_pos hk] at h
      cases e1 : vPlainStr (lookupField fs "comment_id") "comment_id" with
      | error e => simp only [e1, err_bind] at h; cases h
      | ok cid =>
      simp only [e1, ok_bind] at h
      cases e2 : vReqStrStrip (lookupField fs "author_name") "author_name" 1 80 with
      | error e => simp only [e2, err_bind] at h; cases h
      | ok name =>
      simp only [e2, ok_bind] at h
      cases e3 : vReqStrStrip (lookupField fs "author_role") "author_role" 1 30 with
      | error e => simp only [e3, err_bind] at h; cases h
      | ok role =>
      simp only [e3, ok_bind] at h
      by_cases hmem : role ∈ COMMENT_AUTHOR_ROLES
      · rw [if_pos hmem] at h
        try rw [ok_bind] at h
        cases e4 : vReqStrStrip (lookupField fs "message") "message" 1 1000 with
        | error e => simp only [e4, err_bind] at h; cases h
        | ok msg =>
        simp only [e4, ok_bind] at h
        cases e5 : vDatetime (lookupField fs "created_at") "created_at" with
        | error e => simp only [e5, err_bind] at h; cases h
        | ok ts =>
        simp only [e5, ok_bind] at h
        injection h with h
        subst h
        simp only [wfComment, Bool.and_eq_true, and_assoc]
        refine ⟨vReqStrStrip_wf e2, vReqStrStrip_wf e3, ?_, vReqStrStrip_wf e4⟩
        rw [List.contains_eq_any_beq]
        rw [List.any_eq_true]
        exact ⟨role, hmem, by simp⟩
      · rw [if_neg hmem] at h
        simp [err_bind] at h
    · rw [if_neg hk] at h; cases h
  | null => simp [vComment] at h
  | bool b => simp [vComment] at h
  | num q => simp [vComment] at h
  | str s => simp [vComment] at h
  | arr a => simp [vComment] at h

theorem vCommentItems_wf :
    ∀ {items : List Json} {cs : List Comment}, vCommentItems items = .ok cs →
      cs.all wfComment = true := by
  intro items
  induction items with
  | nil =>
    intro cs h
    injection h with h
    subst h
    rfl
  | cons j rest ih =>
    intro cs h
    simp only [vCommentItems] at h
    cases e1 : vComment j with
    | error e => simp only [e1, err_bind] at h; cases h
    | ok c =>
    simp only [e1, ok_bind] at h
    cases e2 : vCommentItems rest with
    | error e => simp only [e2, err_bind] at h; cases h
    | ok tail =>
    simp only [e2, ok_bind] at h
    injection h with h
    subst h
    simp only [List.all_cons, Bool.and_eq_true]
    exact ⟨vComment_wf e1, ih e2⟩

theorem vComments_wf {v : Option Json} {cs : List Comment}
    (h : vComments v = .ok cs) : cs.all wfComment = true := by
  cases v with
  | none => injection h with h; subst h; rfl
  | some j =>
    cases j with
    | arr items => exact vCommentItems_wf h
    | null => simp [vComments] at h
    | bool b => simp [vComments] at h
    | num q => simp [vComments] at h
    | str s => simp [vComments] at h
    | obj o => simp [vComments] at h

theorem parseIssueReport_wf {fs : List (String × Json)} {r : IssueReport}
    (h : parseIssueReport fs = .ok r) : wfIssueReport r = true := by
  simp only [parseIssueReport] at h
  by_cases hk : fs.all (fun p => issueReportKeys.contains p.1) = true
  case neg => rw [if_neg hk] at h; cases h
  rw [if_pos hk] at h
  cases e1 : vPlainStr (lookupField fs "report_id") "report_id" with
  | error err => simp only [e1, err_bind] at h; cases h
  | ok rid =>
  simp only [e1, ok_bind] at h
  cases e2 : vSourceReq (lookupField fs "source") with
  | error err => simp only [e2, err_bind] at h; cases h
  | ok src =>
  simp only [e2, ok_bind] at h
  cases e3 : vReqStrStrip (lookupField fs "property_name") "property_name" 1 120 with
  | error err => simp only [e3, err_bind] at h; cases h
  | ok pn =>
  simp only [e3, ok_bind] at h
  cases e4 : vReqStrStrip (lookupField fs "building") "building" 1 120 with
  | error err => simp only [e4, err_bind] at h; cases h
  | ok bld =>
  simp only [e4, ok_bind] at h
  cases e5 : vReqStrStrip (lookupField fs "unit_number") "unit_number" 1 30 with
  | error err => simp only [e5, err_bind] at h; cases h
  | ok un =>
  simp only [e5, ok_bind] at h
  cases e6 : vOptStrStrip (lookupField fs "area") "area" 120 with
  | error err => simp only [e6, err_bind] at h; cases h
  | ok area =>
  simp only [e6, ok_bind] at h
  cases e7 : vOptStrStrip (lookupField fs "note_text") "note_text" 3000 with
  | error err => simp only [e7, err_bind] at h; cases h
  | ok note =>
  simp only [e7, ok_bind] at h
  cases e8 : vOptStrStrip (lookupField fs "image_filename") "image_filename" 255 with
  | error err => simp only [e8, err_bind] at h; cases h
  | ok imgFn =>
  simp only [e8, ok_bind] at h
  cases e9 : vImagePath (lookupField fs "image_path") with
  | error err => simp only [e9, err_bind] at h; cases h
  | ok imgPath =>
  simp only [e9, ok_bind] at h
  cases e10 : vImageMime (lookupField fs "image_mime") with
  | error err => simp only [e10, err_bind] at h; cases h
  | ok imgMime =>
  simp only [e10, ok_bind] at h
  cases e11 : vReqStrStrip (lookupField fs "raw_observations") "raw_observations" 1 4000 with
  | error err => simp only [e11, err_bind] at h; cases h
  | ok rawObs =>
  simp only [e11, ok_bind] at h
  cases e12 : vReqStrStrip (lookupField fs "reported_observation") "reported_observation" 3 1000 with
  | error err => simp only [e12, err_bind] at h; cases h
  | ok repObs =>
  simp only [e12, ok_bind] at h
  cases e13 : vReqStrStrip (lookupField fs "issue") "issue" 3 500 with
  | error err => simp only [e13, err_bind] at h; cases h
  | ok iss =>
  simp only [e13, ok_bind] at h
  cases e14 : vUrgencyExact (lookupField fs "urgency") with
  | error err => simp only [e14, err_bind] at h; cases h
  | ok urg =>
  simp only [e14, ok_bind] at h
  cases e15 : vCategoryExact (lookupField fs "category") with
  | error err => simp only [e15, err_bind] at h; cases h
  | ok cat =>
  simp only [e15, ok_bind] at h
  cases e16 : vReqStrStrip (lookupField fs "recommended_action") "recommended_action" 3 1200 with
  | error err => simp only [e16, err_bind] at h; cases h
  | ok act =>
  simp only [e16, ok_bind] at h
  cases e17 : vEntities (lookupField fs "extracted_entities") with
  | error err => simp only [e17, err_bind] at h; cases h
  | ok ents =>
  simp only [e17, ok_bind] at h
  cases e18 : vConfidence (lookupField fs "confidence") with
  | error err => simp only [e18, err_bind] at h; cases h
  | ok conf =>
  simp only [e18, ok_bind] at h
  cases e19 : vBoolDefaultFalse (lookupField fs "needs_followup") with
  | error err => simp only [e19, err_bind] at h; cases h
  | ok needsF =>
  simp only [e19, ok_bind] at h
  cases e20 : vStrListStrict (lookupField fs "followup_questions") with
  | error err => simp only [e20, err_bind] at h; cases h
  | ok fqs =>
  simp only [e20, ok_bind] at h
  cases e21 : vOptStrStrip (lookupField fs "photo_observation") "photo_observation" 500 with
  | error err => simp only [e21, err_bind] at h; cases h
  | ok po =>
  simp only [e21, ok_bind] at h
  cases e22 : vStatusDefault (lookupField fs "status") with
  | error err => simp only [e22, err_bind] at h; cases h
  | ok st =>
  simp only [e22, ok_bind] at h
  cases e23 : vComments (lookupField fs "comments") with
  | error err => simp only [e23, err_bind] at h; cases h
  | ok cms =>
  simp only [e23, ok_bind] at h
  cases e24 : vStrListStrict (lookupField fs "recipients") with
  | error err => simp only [e24, err_bind] at h; cases h
  | ok rcp =>
  simp only [e24, ok_bind] at h
  cases e25 : vDatetime (lookupField fs "created_at") "created_at" with
  | error err => simp only [e25, err_bind] at h; cases h
  | ok ca =>
  simp only [e25, ok_bind] at h
  cases e26 : vDatetime (lookupField fs "updated_at") "updated_at" with
  | error err => simp only [e26, err_bind] at h; cases h
  | ok ua =>
  simp only [e26, ok_bind] at h
  injection h with h
  subst h
  simp only [wfIssueReport, Bool.and_eq_true, and_assoc]
  exact ⟨vReqStrStrip_wf e3, vReqStrStrip_wf e4, vReqStrStrip_wf e5,
    vOptStrStrip_wf e6, vOptStrStrip_wf e7, vOptStrStrip_wf e8,
    vImagePath_wf e9, vImageMime_wf e10, vReqStrStrip_wf e11,
    vReqStrStrip_wf e12, vReqStrStrip_wf e13, vReqStrStrip_wf e16,
    vEntities_wf e17, vConfidence_wf e18, vOptStrStrip_wf e21, vComments_wf e23⟩

/-! `storage/repository.py`: the JSONL-backed record store.  A store state is
the sequence of physical lines of the durable log; each line is represented
by the outcome of stripping and `json.loads` on it (stdlib parsing abstracted
at its result). -/

inductive RawLine where
  | blankLine
  | badJsonLine
  | jsonLine (j : Json)

def entryTypeIsIssueReport (fields : List (String × Json)) : Bool :=
  match lookupField fields "entry_type" with
  | some (Json.str s) => s == "issue_report"
  | _ => false

/-- The wrapper logic of `_load_issues_map_unlocked`: an object carrying
`entry_type == "issue_report"` contributes its `payload`; any other object is
treated as a legacy direct payload. -/
def payloadOfFields (fields : List (String × Json)) : Option Json :=
  if entryTypeIsIssueReport fields then lookupField fields "payload"
  else some (Json.obj fields)

/-- Validate one candidate payload: non-object payloads and payloads failing
`IssueReport` validation are skipped. -/
def parsePayload : Option Json → Option IssueReport
  | some (Json.obj pf) =>
    match parseIssueReport pf with
    | .ok issue => some issue
    | .error _ => none
  | _ => none

/-- One iteration of `_load_issues_map_unlocked`: skip blank lines and JSON
decode failures, unwrap the entry wrapper, validate the payload. -/
def loadLine : RawLine → Option IssueReport
  | .blankLine => none
  | .badJsonLine => none
  | .jsonLine (Json.obj fields) => parsePayload (payloadOfFields fields)
  | .jsonLine _ => none

abbrev IssueMap := List (String × IssueReport)

/-- Python dict assignment `issues_by_id[key] = value`: overwrite in place,
else append. -/
def dictSet (m : IssueMap) (k : String) (v : IssueReport) : IssueMap :=
  match m with
  | [] => [(k, v)]
  | (k2, v2) :: rest => if k2 = k then (k2, v) :: rest else (k2, v2) :: dictSet rest k v

def lookupId : IssueMap → String → Option IssueReport
  | [], _ => none
  | (k, v) :: rest, key => if k = key then some v else lookupId rest key

/-- Fold one replayed line into the map. -/
def loadMapStep (m : IssueMap) : Option IssueReport → IssueMap
  | none => m
  | some issue => dictSet m issue.report_id issue

def loadMapGo : List RawLine → IssueMap → IssueMap
  | [], m => m
  | line :: rest, m => loadMapGo rest (loadMapStep m (loadLine line))

/-- `_load_issues_map_unlocked`: replay the whole log into an in-memory map
keyed by `report_id`, later lines overwriting earlier ones. -/
def loadIssuesMap (lines : List RawLine) : IssueMap := loadMapGo lines []

def mapIssues (m : IssueMap) : List IssueReport := m.map Prod.snd

def updatedGE (a b : IssueReport) : Prop := b.updated_at ≤ a.updated_at

instance : DecidableRel updatedGE :=
  fun a b => inferInstanceAs (Decidable (b.updated_at ≤ a.updated_at))

instance : IsTotal IssueReport updatedGE :=
  ⟨fun a b => Int.le_total b.updated_at a.updated_at⟩

instance : IsTrans IssueReport updatedGE :=
  ⟨fun _ _ _ hab hbc => le_trans hbc hab⟩

def createdLE (a b : IssueReport) : Prop := a.created_at ≤ b.created_at

instance : DecidableRel createdLE :=
  fun a b => inferInstanceAs (Decidable (a.created_at ≤ b.created_at))

/-- `_rewrite_all_issues_unlocked`: write every current record, sorted by
`created_at` ascending, one wrapped entry per line (full-file rewrite). -/
def rewriteAllIssues (m : IssueMap) : List RawLine :=
  (List.insertionSort createdLE (mapIssues m)).map
    (fun issue => RawLine.jsonLine (serializeIssueEntry issue))

/-- `list_issues`: all current records sorted by `updated_at` descending. -/
def listIssues (s : List RawLine) : List IssueReport :=
  List.insertionSort updatedGE (mapIssues (loadIssuesMap s))

/-- `get_issue`. -/
def getIssue (s : List RawLine) (issueId : String) : Option IssueReport :=
  lookupId (loadIssuesMap s) issueId

/-- `upsert_issue`: replace-or-insert by id, then rewrite the whole log. -/
def upsertIssue (s : List RawLine) (issue : IssueReport) : List RawLine :=
  rewriteAllIssues (dictSet (loadIssuesMap s) issue.report_id issue)

/-- `save_issue_report` delegates to `upsert_issue`. -/
def saveIssueReport (s : List RawLine) (report : IssueReport) : List RawLine :=
  upsertIssue s report

/-- `add_comment`: a missing id is a persistence error raised before any
write; otherwise append the comment, bump `updated_at` to the clock value
`now`, and rewrite.  Returns the op result together with the log state. -/
def addComment (s : List RawLine) (issueId : String) (comment : Comment)
    (now : Datetime) : Except String IssueReport × List RawLine :=
  match lookupId (loadIssuesMap s) issueId with
  | none => (.error ("Issue " ++ issueId ++ " not found."), s)
  | some issue =>
    let updated := { issue with comments := issue.comments ++ [comment], updated_at := now }
    (.ok updated, rewriteAllIssues (dictSet (loadIssuesMap s) issueId updated))

/-- `update_status`: same load, look up, replace, bump, rewrite pattern. -/
def updateStatus (s : List RawLine) (issueId : String) (newStatus : Status)
    (now : Datetime) : Except String IssueReport × List RawLine :=
  match lookupId (loadIssuesMap s) issueId with
  | none => (.error ("Issue " ++ issueId ++ " not found."), s)
  | some issue =>
    let updated := { issue with status := newStatus, updated_at := now }
    (.ok updated, rewriteAllIssues (dictSet (loadIssuesMap s) issueId updated))

/-! Store lemmas. -/

/-- A well-formed record written as a wrapped entry line replays to itself. -/
theorem loadLine_rt (r : IssueReport) (h : wfIssueReport r = true) :
    loadLine (RawLine.jsonLine (serializeIssueEntry r)) = some r := by
  show parsePayload (payloadOfFields [("entry_type", Json.str "issue_report"),
    ("created_at", Json.num (r.created_at : ℚ)), ("payload", serializeIssueReport r)]) = some r
  rw [show payloadOfFields [("entry_type", Json.str "issue_report"),
    ("created_at", Json.num (r.created_at : ℚ)), ("payload", serializeIssueReport r)] =
    some (serializeIssueReport r) from rfl]
  show (match parseIssueReport (issueReportFields r) with
    | .ok issue => some issue
    | .error _ => none) = some r
  rw [parseIssueReport_roundtrip r h]

theorem parsePayload_wf {p : Option Json} {r : IssueReport}
    (h : parsePayload p = some r) : wfIssueReport r = true := by
  cases p with
  | none => cases h
  | some j =>
    cases j with
    | obj pf =>
      simp only [parsePayload] at h
      cases hr : parseIssueReport pf with
      | ok issue =>
        simp only [hr] at h
        injection h with h
        subst h
        exact parseIssueReport_wf hr
      | error e => simp only [hr] at h; cases h
    | null => cases h
    | bool b => cases h
    | num q => cases h
    | str st => cases h
    | arr a => cases h

theorem loadLine_wf {line : RawLine} {r : IssueReport}
    (h : loadLine line = some r) : wfIssueReport r = true := by
  cases line with
  | blankLine => cases h
  | badJsonLine => cases h
  | jsonLine j =>
    cases j with
    | obj fields => exact parsePayload_wf h
    | null => cases h
    | bool b => cases h
    | num q => cases h
    | str st => cases h
    | arr a => cases h

theorem lookupId_dictSet_self (m : IssueMap) (k : String) (v : IssueReport) :
    lookupId (dictSet m k v) k = some v := by
  induction m with
  | nil => simp [dictSet, lookupId]
  | cons p rest ih =>
    obtain ⟨k2, v2⟩ := p
    by_cases hk : k2 = k
    · subst hk; simp [dictSet, lookupId]
    · simp [dictSet, lookupId, hk, ih]

theorem mem_dictSet {m : IssueMap} {k : String} {v : IssueReport} {p : String × IssueReport}
    (h : p ∈ dictSet m k v) : p ∈ m ∨ p = (k, v) := by
  induction m with
  | nil => simpa [dictSet] using h
  | cons q rest ih =>
    obtain ⟨k2, v2⟩ := q
    by_cases hk : k2 = k
    · simp only [dictSet, if_pos hk] at h
      rcases List.mem_cons.mp h with h2 | h2
      · exact Or.inr (by rw [h2, hk])
      · exact Or.inl (List.mem_cons_of_mem _ h2)
    · simp only [dictSet, if_neg hk] at h
      rcases List.mem_cons.mp h with h2 | h2
      · exact Or.inl (by rw [h2]; exact List.mem_cons_self _ _)
      · rcases ih h2 with h3 | h3
        · exact Or.inl (List.mem_cons_of_mem _ h3)
        · exact Or.inr h3

theorem self_mem_dictSet (m : IssueMap) (k : String) (v : IssueReport) :
    (k, v) ∈ dictSet m k v := by
  induction m with
  | nil => simp [dictSet]
  | cons q rest ih =>
    obtain ⟨k2, v2⟩ := q
    by_cases hk : k2 = k
    · simp only [dictSet, if_pos hk, List.mem_cons]
      exact Or.inl (by rw [hk])
    · simp only [dictSet, if_neg hk, List.mem_cons]
      exact Or.inr ih

theorem mem_keys_dictSet {m : IssueMap} {k : String} {v : IssueReport} {x : String}
    (h : x ∈ (dictSet m k v).map Prod.fst) : x ∈ m.map Prod.fst ∨ x = k := by
  rw [List.mem_map] at h
  obtain ⟨p, hp, hx⟩ := h
  rcases mem_dictSet hp with h2 | h2
  · exact Or.inl (by rw [List.mem_map]; exact ⟨p, h2, hx⟩)
  · subst h2; exact Or.inr hx.symm

theorem nodup_keys_dictSet (m : IssueMap) (k : String) (v : IssueReport)
    (h : (m.map Prod.fst).Nodup) : ((dictSet m k v).map Prod.fst).Nodup := by
  induction m with
  | nil => simp [dictSet]
  | cons q rest ih =>
    obtain ⟨k2, v2⟩ := q
    simp only [List.map_cons, List.nodup_cons] at h
    by_cases hk : k2 = k
    · simp only [dictSet, if_pos hk, List.map_cons, List.nodup_cons]
      exact h
    · simp only [dictSet, if_neg hk, List.map_cons, List.nodup_cons]
      refine ⟨?_, ih h.2⟩
      intro hmem
      rcases mem_keys_dictSet hmem with h2 | h2
      · exact h.1 h2
      · exact hk h2

theorem dictSet_fresh {m : IssueMap} {k : String} {v : IssueReport}
    (h : k ∉ m.map Prod.fst) : dictSet m k v = m ++ [(k, v)] := by
  induction m with
  | nil => rfl
  | cons q rest ih =>
    obtain ⟨k2, v2⟩ := q
    simp only [List.map_cons, List.mem_cons, not_or] at h
    have hne : k2 ≠ k := fun he => h.1 he.symm
    simp only [dictSet, if_neg hne]
    rw [ih h.2]
    simp

/-- Invariant of every replayed map: duplicate-free keys, each key equal to
its record id, every record validator-well-formed. -/
def StoreInv (m : IssueMap) : Prop :=
  (m.map Prod.fst).Nodup ∧ ∀ p ∈ m, wfIssueReport p.2 = true ∧ p.1 = p.2.report_id

theorem StoreInv_nil : StoreInv [] := ⟨List.nodup_nil, by simp⟩

theorem StoreInv_dictSet {m : IssueMap} {v : IssueReport} (hm : StoreInv m)
    (hwf : wfIssueReport v = true) : StoreInv (dictSet m v.report_id v) := by
  refine ⟨nodup_keys_dictSet m _ v hm.1, ?_⟩
  intro p hp
  rcases mem_dictSet hp with h2 | h2
  · exact hm.2 p h2
  · subst h2; exact ⟨hwf, rfl⟩

theorem StoreInv_loadMapGo :
    ∀ (lines : List RawLine) (m : IssueMap), StoreInv m → StoreInv (loadMapGo lines m) := by
  intro lines
  induction lines with
  | nil => intro m hm; exact hm
  | cons line rest ih =>
    intro m hm
    simp only [loadMapGo]
    cases hl : loadLine line with
    | none => exact ih m (by simpa [loadMapStep, hl] using hm)
    | some issue =>
      simp only [loadMapStep]
      exact ih _ (StoreInv_dictSet hm (loadLine_wf hl))

theorem StoreInv_loadIssuesMap (s : List RawLine) : StoreInv (loadIssuesMap s) :=
  StoreInv_loadMapGo s [] StoreInv_nil

theorem lookupId_eq_some_of_mem {m : IssueMap} {k : String} {v : IssueReport}
    (hnd : (m.map Prod.fst).Nodup) (hmem : (k, v) ∈ m) : lookupId m k = some v := by
  induction m with
  | nil => cases hmem
  | cons q rest ih =>
    obtain ⟨k2, v2⟩ := q
    simp only [List.map_cons, List.nodup_cons] at hnd
    rcases List.mem_cons.mp hmem with h2 | h2
    · injection h2 with ha hb
      subst ha; subst hb
      simp [lookupId]
    · have hk : k2 ≠ k := by
        intro he
        subst he
        exact hnd.1 (by rw [List.mem_map]; exact ⟨(k2, v), h2, rfl⟩)
      simp only [lookupId, if_neg hk]
      exact ih hnd.2 h2

theorem mem_of_lookupId_eq_some {m : IssueMap} {k : String} {v : IssueReport}
    (h : lookupId m k = some v) : (k, v) ∈ m := by
  induction m with
  | nil => cases h
  | cons q rest ih =>
    obtain ⟨k2, v2⟩ := q
    simp only [lookupId] at h
    by_cases hk : k2 = k
    · subst hk
      rw [if_pos rfl] at h
      injection h with h
      subst h
      exact List.mem_cons_self _ _
    · rw [if_neg hk] at h
      exact List.mem_cons_of_mem _ (ih h)

theorem lookupId_eq_none_iff {m : IssueMap} {k : String} :
    lookupId m k = none ↔ k ∉ m.map Prod.fst := by
  induction m with
  | nil => simp [lookupId]
  | cons q rest ih =>
    obtain ⟨k2, v2⟩ := q
    simp only [lookupId, List.map_cons, List.mem_cons]
    by_cases hk : k2 = k
    · subst hk
      simp
    · rw [if_neg hk, ih]
      constructor
      · intro h
        intro hc
        rcases hc with hc | hc
        · exact hk hc.symm
        · exact h hc
      · intro h
        intro hc
        exact h (Or.inr hc)

theorem lookupId_perm {m1 m2 : IssueMap} (hp : m1.Perm m2)
    (h1 : (m1.map Prod.fst).Nodup) (k : String) : lookupId m1 k = lookupId m2 k := by
  cases hv : lookupId m1 k with
  | some v =>
    have h2 : (m2.map Prod.fst).Nodup := ((hp.map Prod.fst).nodup_iff).mp h1
    exact (lookupId_eq_some_of_mem h2 (hp.mem_iff.mp (mem_of_lookupId_eq_some hv))).symm
  | none =>
    symm
    rw [lookupId_eq_none_iff]
    have := lookupId_eq_none_iff.mp hv
    intro hmem
    exact this ((hp.map Prod.fst).mem_iff.mpr hmem)

theorem loadMapGo_serialized :
    ∀ (vals : List IssueReport) (m : IssueMap),
      (∀ v ∈ vals, wfIssueReport v = true) →
      (∀ v ∈ vals, v.report_id ∉ m.map Prod.fst) →
      (vals.map (fun v => v.report_id)).Nodup →
      loadMapGo (vals.map (fun v => RawLine.jsonLine (serializeIssueEntry v))) m =
        m ++ vals.map (fun v => (v.report_id, v)) := by
  intro vals
  induction vals with
  | nil => intro m _ _ _; simp [loadMapGo]
  | cons v rest ih =>
    intro m hwf hfresh hnd
    simp only [List.map_cons, loadMapGo, loadLine_rt v (hwf v (by simp)), loadMapStep]
    rw [dictSet_fresh (hfresh v (by simp))]
    simp only [List.map_cons, List.nodup_cons] at hnd
    rw [ih (m ++ [(v.report_id, v)]) (fun u hu => hwf u (by simp [hu]))
      (fun u hu => by
        simp only [List.map_append, List.mem_append]
        intro hc
        rcases hc with hc | hc
        · exact hfresh u (by simp [hu]) hc
        · simp only [List.map_cons, List.map_nil, List.mem_singleton] at hc
          exact hnd.1 (by rw [← hc]; exact List.mem_map_of_mem _ hu)) hnd.2]
    simp

theorem StoreInv_pair_eq {m : IssueMap} (hm : StoreInv m) :
    m.map (fun p => (p.2.report_id, p.2)) = m := by
  have : ∀ p ∈ m, (fun p : String × IssueReport => (p.2.report_id, p.2)) p = id p := by
    intro p hp
    have := (hm.2 p hp).2
    cases p with
    | mk a b => simp only [id]; rw [← this]
  rw [List.map_congr_left this, List.map_id]

theorem loadIssuesMap_rewrite (m : IssueMap) (hm : StoreInv m) :
    loadIssuesMap (rewriteAllIssues m) =
      (List.insertionSort createdLE (mapIssues m)).map (fun v => (v.report_id, v)) := by
  unfold loadIssuesMap rewriteAllIssues
  have hperm : (List.insertionSort createdLE (mapIssues m)).Perm (mapIssues m) :=
    List.perm_insertionSort createdLE (mapIssues m)
  have hwf : ∀ v ∈ List.insertionSort createdLE (mapIssues m), wfIssueReport v = true := by
    intro v hv
    have hv2 : v ∈ mapIssues m := hperm.mem_iff.mp hv
    rw [mapIssues, List.mem_map] at hv2
    obtain ⟨p, hp, he⟩ := hv2
    rw [← he]
    exact (hm.2 p hp).1
  have hids : ((mapIssues m).map (fun v => v.report_id)) = m.map Prod.fst := by
    rw [mapIssues, List.map_map]
    apply List.map_congr_left
    intro p hp
    exact ((hm.2 p hp).2).symm
  have hnd : ((List.insertionSort createdLE (mapIssues m)).map
      (fun v => v.report_id)).Nodup := by
    refine ((hperm.map (fun v => v.report_id)).nodup_iff).mpr ?_
    rw [hids]
    exact hm.1
  rw [loadMapGo_serialized _ [] hwf (by simp) hnd]
  simp

theorem loadIssuesMap_rewrite_perm (m : IssueMap) (hm : StoreInv m) :
    (loadIssuesMap (rewriteAllIssues m)).Perm m := by
  rw [loadIssuesMap_rewrite m hm]
  have hperm : (List.insertionSort createdLE (mapIssues m)).Perm (mapIssues m) :=
    List.perm_insertionSort createdLE (mapIssues m)
  have : ((List.insertionSort createdLE (mapIssues m)).map
      (fun v => (v.report_id, v))).Perm ((mapIssues m).map (fun v => (v.report_id, v))) :=
    hperm.map _
  refine this.trans ?_
  rw [mapIssues, List.map_map]
  rw [show ((fun v : IssueReport => (v.report_id, v)) ∘ Prod.snd) =
    (fun p : String × IssueReport => (p.2.report_id, p.2)) from rfl]
  rw [StoreInv_pair_eq hm]

/-- The head of the descending sort is the strict maximum when one exists. -/
theorem head_insertionSort_max (l : List IssueReport) (res : IssueReport)
    (hmem : res ∈ l) (hmax : ∀ y ∈ l, y = res ∨ y.updated_at < res.updated_at) :
    (List.insertionSort updatedGE l).head? = some res := by
  have hperm := List.perm_insertionSort updatedGE l
  have hsorted := List.sorted_insertionSort updatedGE l
  have hmem2 : res ∈ List.insertionSort updatedGE l := hperm.mem_iff.mpr hmem
  cases hs : List.insertionSort updatedGE l with
  | nil => rw [hs] at hmem2; cases hmem2
  | cons hd t =>
    rw [hs] at hmem2 hsorted hperm
    have hhl : hd ∈ l := hperm.mem_iff.mp (List.mem_cons_self _ _)
    rcases hmax hd hhl with he | hlt
    · rw [he]
      rfl
    · rcases List.mem_cons.mp hmem2 with he | ht
      · subst he; exact absurd hlt (lt_irrefl _)
      · have hge := (List.sorted_cons.mp hsorted).1 res ht
        exact absurd (lt_of_le_of_lt hge hlt) (lt_irrefl _)

/-! `src/propupkeep/services/router.py`: the recipient router. -/

def categoryDefaults : IssueCategory → List String
  | .safety => ["On-Call Safety Team", "Property Manager"]
  | .electrical => ["Licensed Electrical Vendor", "Maintenance Supervisor"]
  | .plumbing => ["Plumbing Vendor", "Maintenance Team"]
  | .hvac => ["HVAC Vendor", "Maintenance Team"]
  | .appliance => ["Appliance Vendor", "Maintenance Team"]
  | .cosmetic => ["Turn Team"]
  | .general => ["Maintenance Team"]
  | .unknown => ["Maintenance Team"]

def highPriorityRecipients : List String := ["Community Manager"]

/-- Code-point lexicographic comparison (Python string ordering). -/
def listLtChars : List Char → List Char → Bool
  | [], [] => false
  | [], _ :: _ => true
  | _ :: _, [] => false
  | a :: as, b :: bs =>
    if a.toNat < b.toNat then true
    else if b.toNat < a.toNat then false
    else listLtChars as bs

def strLtB (a b : String) : Bool := listLtChars a.data b.data

def strLeB (a b : String) : Bool := a == b || strLtB a b

def insertStrAsc (x : String) : List String → List String
  | [] => [x]
  | y :: rest => if strLeB x y then x :: y :: rest else y :: insertStrAsc x rest

def sortStrings : List String → List String
  | [] => []
  | x :: rest => insertStrAsc x (sortStrings rest)

/-- Python `sorted(set(names))`: duplicates removed, lexicographically sorted. -/
def pySortedSet (names : List String) : List String :=
  sortStrings (dedupKeepFirst names)

/-- `IssueRouter.route_recipients`: the category default list, plus the
community manager on high urgency, deduplicated and sorted. -/
def routeRecipients (category : IssueCategory) (urgency : Urgency) : List String :=
  let recipients := categoryDefaults category
  let recipients :=
    if urgency = .high then recipients ++ highPriorityRecipients else recipients
  pySortedSet recipients

def strSortedB : List String → Bool
  | [] => true
  | [_] => true
  | a :: b :: rest => strLeB a b && strSortedB (b :: rest)

/-! `ai/formatter.py` (the current `projects/propupkeep` version) and the error
taxonomy of `core/errors.py`. -/

inductive AppError where
  | userVisible (userMessage : String) (detail : Option String)
  | configuration (userMessage : String)
  | aiFormatting (userMessage : String) (detail : Option String)
  | persistence (userMessage : String) (detail : Option String)
  | pydanticValidation (detail : String)
deriving DecidableEq, Repr

/-- Which model errors inherit from `UserVisibleError`; a raw pydantic
`ValidationError` does not. -/
def AppError.isUserVisibleClass : AppError → Bool
  | .pydanticValidation _ => false
  | _ => true

/-- The content of one chat-completion response, represented by the outcome
of the stdlib string handling in `_extract_json_payload` (fence stripping and
`json.loads`, with the brace-span fallback): either the decoded JSON
document, or the extraction failure message. -/
abbrev ChatContent := Except String Json

/-- One network call: either an `AIFormattingError` raised inside
`_chat_completion` (HTTP error, network failure, malformed envelope), or the
response content. -/
inductive ChatResult where
  | httpFailure (userMessage detail : String)
  | content (c : ChatContent)

/-- The tail of `_extract_json_payload`: the decoded document must be an
object. -/
def extractJsonPayload : ChatContent → Except String (List (String × Json))
  | .error e => .error e
  | .ok (Json.obj fs) => .ok fs
  | .ok _ => .error "AI response JSON must be an object."

/-- `_parse_and_validate`. -/
def parseAndValidate (c : ChatContent) : Except String AIFormattedIssue := do
  let fs ← extractJsonPayload c
  modelValidateAIFormattedIssue fs

/-- `format_issue`: the oracle arguments supply the outcome of each network
call the code can make (`first` for the initial request, `second` for the
repair request built by `_repair_once`); the second component counts the
requests issued.  Network-level failures propagate unrepaired: the `except`
clause around `_parse_and_validate` catches only parse and validation
failures, and `AIFormattingError` is no `ValueError`. -/
def formatIssue (apiKey : String) (first second : ChatResult) :
    Except AppError AIFormattedIssue × Nat :=
  if apiKey = "" then
    (.error (.configuration
      "AI formatting is unavailable. Set OPENAI_API_KEY to enable this feature."), 0)
  else
    match first with
    | .httpFailure m d => (.error (.aiFormatting m (some d)), 1)
    | .content c1 =>
      match parseAndValidate c1 with
      | .ok v => (.ok v, 1)
      | .error _ =>
        match second with
        | .httpFailure m d => (.error (.aiFormatting m (some d)), 2)
        | .content c2 =>
          match parseAndValidate c2 with
          | .ok v => (.ok v, 2)
          | .error e2 =>
            (.error (.aiFormatting
              "We could not format this note right now. Please edit and try again."
              (some e2)), 2)

/-- `_build_user_prompt` of the current formatter.  It has no MIME parameter
and emits no MIME line (see C9). -/
def buildUserPrompt (source : IssueSource) (metadata : IssueMetadata)
    (noteText : Option String) (imageFilename : Option String)
    (imageBytes : Option (List Nat)) : String :=
  let noteBlock := match noteText with
    | some t => if t = "" then "[none provided]" else t
    | none => "[none provided]"
  let imageName := match imageFilename with
    | some f => if f = "" then "[none provided]" else f
    | none => "[none provided]"
  let imageSize : Nat := match imageBytes with
    | some bs => bs.length
    | none => 0
  let area := match metadata.area with
    | some a => if a = "" then "Unknown" else a
    | none => "Unknown"
  "Create a structured Issue Report for property operations.\n" ++
    "Preserve factual entities exactly as reported.\n" ++
    "If facts are missing, use Unknown and set needs_followup=true with questions.\n\n" ++
    "Submission Facts (must preserve):\n" ++
    "- source: " ++ sourceValue source ++ "\n" ++
    "- property_name: " ++ metadata.property_name ++ "\n" ++
    "- building: " ++ metadata.building ++ "\n" ++
    "- unit_number: " ++ metadata.unit_number ++ "\n" ++
    "- area: " ++ area ++ "\n" ++
    "- note_text: " ++ noteBlock ++ "\n" ++
    "- image_filename: " ++ imageName ++ "\n" ++
    "- image_bytes_length: " ++ toString imageSize ++ "\n\n" ++
    "When source is photo and note_text is empty, rely on filename/metadata only " ++
    "and ask follow-up questions as needed."

def listStartsWith : List Char → List Char → Bool
  | _, [] => true
  | [], _ :: _ => false
  | a :: as, b :: bs => a == b && listStartsWith as bs

def listContainsSub : List Char → List Char → Bool
  | [], pat => pat.isEmpty
  | l@(_ :: rest), pat => listStartsWith l pat || listContainsSub rest pat

/-- Substring test on strings. -/
def strContainsSub (hay pat : String) : Bool := listContainsSub hay.data pat.data

/-! `core/sanitize.py` and `core/workflows.py`. -/

/-- `CONTROL_CHARS_PATTERN`: `[\x00-\x08\x0B-\x1F\x7F]` (tab and newline are
not control characters here; carriage return is). -/
def isCtrlChar (c : Char) : Bool :=
  c.toNat ≤ 8 || (11 ≤ c.toNat && c.toNat ≤ 31) || c.toNat == 127

def isHSpace (c : Char) : Bool := c == ' ' || c == '\t'

/-- `re.sub(r"[ \t]+", " ", s)`: collapse each maximal horizontal-whitespace
run to one space (`inRun` tracks whether the run already emitted its space). -/
def collapseHSGo : List Char → Bool → List Char
  | [], _ => []
  | c :: rest, inRun =>
    if isHSpace c then
      if inRun then collapseHSGo rest true else ' ' :: collapseHSGo rest true
    else c :: collapseHSGo rest false

/-- `re.sub(r"\n{3,}", "\n\n", s)`: emit each pending newline run capped at
two. -/
def collapseNLGo : List Char → Nat → List Char
  | [], pending => List.replicate (min pending 2) '\n'
  | c :: rest, pending =>
    if c == '\n' then collapseNLGo rest (pending + 1)
    else List.replicate (min pending 2) '\n' ++ (c :: collapseNLGo rest 0)

/-- `sanitize_user_text`: control characters to spaces, `\r` to `\n` (inert,
since `\r` was already replaced by the control-character pass), collapse
horizontal whitespace, collapse newline runs, strip, truncate. -/
def sanitizeUserText (text : String) (maxChars : Nat) : String :=
  let l := text.data.map (fun c => if isCtrlChar c then ' ' else c)
  let l := l.map (fun c => if c == '\r' then '\n' else c)
  let l := collapseHSGo l false
  let l := collapseNLGo l 0
  let l := pyStripList l
  ⟨l.take maxChars⟩

def isFilenameSafeChar (c : Char) : Bool :=
  (decide ('A' ≤ c) && decide (c ≤ 'Z')) || (decide ('a' ≤ c) && decide (c ≤ 'z')) ||
    (decide ('0' ≤ c) && decide (c ≤ '9')) || c == '.' || c == '_' || c == '-'

/-- `sanitize_filename`. -/
def sanitizeFilename (filename : String) : String :=
  if filename = "" then "upload"
  else ⟨(filename.data.map (fun c => if isFilenameSafeChar c then c else '_')).take 255⟩

/-- One required `IssueMetadata` field through `strip_text` (strip, empty to
`None`, then required) and the length constraints. -/
def reqMetaStr (s : String) (k : String) (maxL : Nat) : Except String String :=
  let t := pyStrip s
  if t = "" then .error (k ++ ": field required")
  else if 1 ≤ t.length ∧ t.length ≤ maxL then .ok t
  else .error (k ++ ": length out of range")

def optMetaStr (s : Option String) (k : String) (maxL : Nat) : Except String (Option String) :=
  match s with
  | none => .ok none
  | some s0 =>
    let t := pyStrip s0
    if t = "" then .ok none
    else if t.length ≤ maxL then .ok (some t)
    else .error (k ++ ": length out of range")

/-- `IssueMetadata(...)` construction through its validators. -/
def mkIssueMetadata (pn bld un : String) (area : Option String) :
    Except String IssueMetadata := do
  let p ← reqMetaStr pn "property_name" 120
  let b ← reqMetaStr bld "building" 120
  let u ← reqMetaStr un "unit_number" 30
  let a ← optMetaStr area "area" 120
  .ok ⟨p, b, u, a⟩

/-- `IssueWorkflowService._sanitize_metadata`: sanitize each field, then
construct a fresh `IssueMetadata` (whose validation can fail when a
sanitized required field comes out empty). -/
def sanitizeMetadata (md : IssueMetadata) : Except String IssueMetadata :=
  mkIssueMetadata (sanitizeUserText md.property_name 120)
    (sanitizeUserText md.building 120) (sanitizeUserText md.unit_number 30)
    (let a := sanitizeUserText (md.area.getD "") 120
     if a = "" then none else some a)

/-- `IssueWorkflowService._normalize_image_mime`. -/
def normalizeImageMime (imageMime : Option String) : Option String :=
  match imageMime with
  | none => none
  | some m =>
    if m = "" then none
    else
      let normalized := pyLower (pyStrip m)
      if normalized ∈ allowedImageMimes then some normalized else none

/-- `IssueWorkflowService._build_observation_context`. -/
def buildObservationContext (source : IssueSource) (metadata : IssueMetadata)
    (noteText : String) (imageFilename : Option String) (imageBytes : Option (List Nat))
    (imageMime : Option String) : String :=
  let area := match metadata.area with
    | some a => if a = "" then "Unknown" else a
    | none => "Unknown"
  let noteBlock := if noteText = "" then "[none provided]" else noteText
  let imageName := match imageFilename with
    | some f => if f = "" then "[none provided]" else f
    | none => "[none provided]"
  let mimeBlock := match imageMime with
    | some m => if m = "" then "Unknown" else m
    | none => "Unknown"
  let imageLength : Nat := match imageBytes with
    | some bs => bs.length
    | none => 0
  let context :=
    "Source: " ++ sourceValue source ++ "\n" ++
    "Property: " ++ metadata.property_name ++ "\n" ++
    "Building: " ++ metadata.building ++ "\n" ++
    "Unit: " ++ metadata.unit_number ++ "\n" ++
    "Area: " ++ area ++ "\n" ++
    "Note: " ++ noteBlock ++ "\n" ++
    "Image Filename: " ++ imageName ++ "\n" ++
    "Image Mime: " ++ mimeBlock ++ "\n" ++
    "Image Bytes Length: " ++ toString imageLength
  ⟨context.data.take 4000⟩

def lastDotIdx : List Char → Option Nat
  | [] => none
  | c :: rest =>
    match lastDotIdx rest with
    | some i => some (i + 1)
    | none => if c == '.' then some 0 else none

/-- `pathlib` suffix of a plain filename: the final extension, empty when the
last dot is leading or trailing. -/
def pathSuffix (name : String) : String :=
  match lastDotIdx name.data with
  | none => ""
  | some i => if 0 < i ∧ i + 1 < name.data.length then ⟨name.data.drop i⟩ else ""

def mimeToExtension (m : String) : String :=
  if m = "image/png" then ".png" else ".jpg"

/-- `IssueWorkflowService._save_image_upload`, filesystem writes abstracted:
compute the stored relative path.  The target name `{report_id}{extension}`
contains no path separator, so the resolved-path containment check passes. -/
def saveImageUpload (reportId : String) (imageFilename : Option String)
    (imageMime : String) (uploadsRelDir : String) : String :=
  let extension := pyLower (pathSuffix (imageFilename.getD ""))
  let extension :=
    if extension = ".png" ∨ extension = ".jpg" ∨ extension = ".jpeg" then extension
    else mimeToExtension imageMime
  uploadsRelDir ++ "/" ++ (reportId ++ extension)

/-- The keyword arguments `submit_issue` passes to `format_issue` — including
`image_mime`, which the current formatter signature does not accept (C9). -/
structure FmtArgs where
  source : IssueSource
  metadata : IssueMetadata
  noteText : Option String
  imageFilename : Option String
  imageBytes : Option (List Nat)
  imageMime : Option String

/-- The keyword arguments of the `IssueReport(...)` construction in
`submit_issue` (absent keys take their declared defaults). -/
def submitReportFields (reportId : String) (source : IssueSource) (sm : IssueMetadata)
    (noteText : Option String) (imageFilename : Option String) (imagePath : Option String)
    (imageMime : Option String) (rawObservations : String) (fi : AIFormattedIssue)
    (recipients : List String) (now : Datetime) : List (String × Json) :=
  [("report_id", Json.str reportId),
   ("source", Json.str (sourceValue source)),
   ("property_name", Json.str sm.property_name),
   ("building", Json.str sm.building),
   ("unit_number", Json.str sm.unit_number),
   ("area", jsonOfOptStr sm.area),
   ("note_text", jsonOfOptStr noteText),
   ("image_filename", jsonOfOptStr imageFilename),
   ("image_path", jsonOfOptStr imagePath),
   ("image_mime", jsonOfOptStr imageMime),
   ("raw_observations", Json.str rawObservations),
   ("reported_observation", Json.str fi.reported_observation),
   ("issue", Json.str fi.issue),
   ("urgency", Json.str (urgencyValue fi.urgency)),
   ("category", Json.str (categoryValue fi.category)),
   ("recommended_action", Json.str fi.recommended_action),
   ("extracted_entities", serializeEntities fi.extracted_entities),
   ("confidence", serializeConfidence fi.confidence),
   ("needs_followup", Json.bool fi.needs_followup),
   ("followup_questions", Json.arr (fi.followup_questions.map Json.str)),
   ("photo_observation", jsonOfOptStr fi.photo_observation),
   ("recipients", Json.arr (recipients.map Json.str)),
   ("created_at", Json.num (now : ℚ)),
   ("updated_at", Json.num (now : ℚ))]

/-- `IssueWorkflowService.submit_issue`.  The formatter is an oracle argument
(`fmt`): the second component of the result counts how many times the code
path reaches the formatter call.  The generated report id and the wall clock
are explicit arguments, filesystem writes are abstracted (see
`saveImageUpload`). -/
def submitIssue (fmt : FmtArgs → Except AppError AIFormattedIssue)
    (s : List RawLine) (maxInputChars maxUploadBytes : Nat) (uploadsRelDir : String)
    (reportId : String) (now : Datetime) (source : IssueSource) (noteText : String)
    (metadata : IssueMetadata) (imageBytes : Option (List Nat))
    (imageFilename : Option String) (imageMime : Option String) :
    Except AppError (IssueReport × List RawLine) × Nat :=
  let sanitizedNote := sanitizeUserText noteText maxInputChars
  let sanitizedFilename := match imageFilename with
    | some f => if f = "" then none else some (sanitizeFilename f)
    | none => none
  match sanitizeMetadata metadata with
  | .error e => (.error (.pydanticValidation e), 0)
  | .ok sm =>
    let hasNote : Bool := !(sanitizedNote == "")
    let hasImage : Bool := match imageBytes with
      | some bs => !bs.isEmpty
      | none => false
    if !hasNote && !hasImage then
      (.error (.userVisible "Please add a note or a photo before submitting." none), 0)
    else if source == IssueSource.note && !hasNote then
      (.error (.userVisible "Please enter notes before formatting for the team." none), 0)
    else if hasImage && decide (maxUploadBytes < (imageBytes.getD []).length) then
      (.error (.userVisible "The uploaded image is too large. Please upload a smaller file." none), 0)
    else
      let normalizedMime := if hasImage then normalizeImageMime imageMime else none
      if hasImage && normalizedMime.isNone then
        (.error (.userVisible "Unsupported image type. Please upload PNG or JPEG." none), 0)
      else
        let rawObservations := buildObservationContext source sm sanitizedNote
          sanitizedFilename imageBytes normalizedMime
        match fmt ⟨source, sm, (if sanitizedNote = "" then none else some sanitizedNote),
          sanitizedFilename, imageBytes, normalizedMime⟩ with
        | .error e => (.error e, 1)
        | .ok fi =>
          let recipients := routeRecipients fi.category fi.urgency
          let imagePath :=
            if hasImage then
              match normalizedMime with
              | some m => some (saveImageUpload reportId sanitizedFilename m uploadsRelDir)
              | none => none
            else none
          match parseIssueReport (submitReportFields reportId source sm
            (if sanitizedNote = "" then none else some sanitizedNote) sanitizedFilename
            imagePath normalizedMime rawObservations fi recipients now) with
          | .error e => (.error (.pydanticValidation e), 1)
          | .ok report => (.ok (report, saveIssueReport s report), 1)

/-! Claim-level helper lemmas. -/

theorem loadMapGo_append :
    ∀ (l1 l2 : List RawLine) (m : IssueMap),
      loadMapGo (l1 ++ l2) m = loadMapGo l2 (loadMapGo l1 m) := by
  intro l1
  induction l1 with
  | nil => intro l2 m; rfl
  | cons line rest ih =>
    intro l2 m
    simp only [List.cons_append, loadMapGo]
    exact ih l2 _

theorem mem_mapIssues_dictSet {m : IssueMap} {k : String} {v : IssueReport}
    {y : IssueReport} (h : y ∈ mapIssues (dictSet m k v)) :
    y = v ∨ y ∈ mapIssues m := by
  rw [mapIssues, List.mem_map] at h
  obtain ⟨p, hp, he⟩ := h
  rcases mem_dictSet hp with h2 | h2
  · exact Or.inr (by rw [mapIssues, List.mem_map]; exact ⟨p, h2, he⟩)
  · rw [h2] at he
    exact Or.inl he.symm

theorem value_mem_mapIssues_dictSet (m : IssueMap) (k : String) (v : IssueReport) :
    v ∈ mapIssues (dictSet m k v) :=
  List.mem_map_of_mem Prod.snd (self_mem_dictSet m k v)

theorem StoreInv_tail {q : String × IssueReport} {rest : IssueMap}
    (h : StoreInv (q :: rest)) : StoreInv rest := by
  refine ⟨?_, fun p hp => h.2 p (List.mem_cons_of_mem _ hp)⟩
  have := h.1
  rw [List.map_cons, List.nodup_cons] at this
  exact this.2

theorem filter_mapIssues_nil_of_fresh {m : IssueMap} {rid : String}
    (hkeys : ∀ p ∈ m, p.1 = p.2.report_id) (hfresh : rid ∉ m.map Prod.fst) :
    (m.map Prod.snd).filter (fun x => x.report_id == rid) = [] := by
  induction m with
  | nil => rfl
  | cons q rest ih =>
    obtain ⟨k2, v2⟩ := q
    simp only [List.map_cons, List.mem_cons, not_or] at hfresh
    have hk2 : k2 = v2.report_id := (hkeys (k2, v2) (List.mem_cons_self _ _))
    have hne : (v2.report_id == rid) = false := by
      rw [beq_eq_false_iff_ne, ← hk2]
      exact fun he => hfresh.1 he.symm
    simp only [List.map_cons, List.filter_cons, hne]
    simp only [Bool.false_eq_true, if_false]
    exact ih (fun p hp => hkeys p (List.mem_cons_of_mem _ hp)) hfresh.2

theorem filter_mapIssues_dictSet {m : IssueMap} {r : IssueReport} (hm : StoreInv m) :
    (mapIssues (dictSet m r.report_id r)).filter (fun x => x.report_id == r.report_id) =
      [r] := by
  induction m with
  | nil => simp [dictSet, mapIssues]
  | cons q rest ih =>
    obtain ⟨k2, v2⟩ := q
    have hnd := hm.1
    rw [List.map_cons, List.nodup_cons] at hnd
    by_cases hk : k2 = r.report_id
    · simp only [dictSet, if_pos hk, mapIssues, List.map_cons, List.filter_cons]
      rw [show (r.report_id == r.report_id) = true from by simp]
      simp only [if_true]
      have hfresh : r.report_id ∉ rest.map Prod.fst := by rw [← hk]; exact hnd.1
      rw [filter_mapIssues_nil_of_fresh
        (fun p hp => ((StoreInv_tail hm).2 p hp).2) hfresh]
    · simp only [dictSet, if_neg hk, mapIssues, List.map_cons, List.filter_cons]
      have hk2 : k2 = v2.report_id := (hm.2 (k2, v2) (List.mem_cons_self _ _)).2
      have hne : (v2.report_id == r.report_id) = false := by
        rw [beq_eq_false_iff_ne, ← hk2]
        exact hk
      rw [hne]
      simp only [Bool.false_eq_true, if_false]
      exact ih (StoreInv_tail hm)

theorem loadIssuesMap_upsert_perm (s : List RawLine) (r : IssueReport)
    (h : wfIssueReport r = true) :
    (loadIssuesMap (upsertIssue s r)).Perm (dictSet (loadIssuesMap s) r.report_id r) :=
  loadIssuesMap_rewrite_perm _ (StoreInv_dictSet (StoreInv_loadIssuesMap s) h)

/-- C4: a report written through the store and reloaded via `get_issue` or
`list_issues` comes back field-for-field equal (serialization then replay is
the identity on validated reports; the store path touches no clock). -/
theorem C4_roundtrip_store (s : List RawLine) (r : IssueReport)
    (h : wfIssueReport r = true) :
    getIssue (saveIssueReport s r) r.report_id = some r ∧
    r ∈ listIssues (saveIssueReport s r) := by
  have hinv1 : StoreInv (dictSet (loadIssuesMap s) r.report_id r) :=
    StoreInv_dictSet (StoreInv_loadIssuesMap s) h
  have hperm : (loadIssuesMap (saveIssueReport s r)).Perm
      (dictSet (loadIssuesMap s) r.report_id r) :=
    loadIssuesMap_rewrite_perm _ hinv1
  constructor
  · show lookupId (loadIssuesMap (saveIssueReport s r)) r.report_id = some r
    rw [lookupId_perm hperm (StoreInv_loadIssuesMap (saveIssueReport s r)).1]
    exact lookupId_dictSet_self _ _ _
  · show r ∈ List.insertionSort updatedGE (mapIssues (loadIssuesMap (saveIssueReport s r)))
    have h1 : r ∈ mapIssues (dictSet (loadIssuesMap s) r.report_id r) :=
      value_mem_mapIssues_dictSet _ _ _
    have h2 : r ∈ mapIssues (loadIssuesMap (saveIssueReport s r)) :=
      ((hperm.map Prod.snd).mem_iff).mpr h1
    exact (List.perm_insertionSort updatedGE _).mem_iff.mpr h2

/-- C5: upserting the same record twice leaves exactly one entry carrying its
`report_id` in `list_issues()`, equal to the record of the latest call. -/
theorem C5_upsert_idempotent (s : List RawLine) (r : IssueReport)
    (h : wfIssueReport r = true) :
    (listIssues (upsertIssue (upsertIssue s r) r)).filter
      (fun x => x.report_id == r.report_id) = [r] := by
  set s1 := upsertIssue s r with hs1
  have hinv2 : StoreInv (dictSet (loadIssuesMap s1) r.report_id r) :=
    StoreInv_dictSet (StoreInv_loadIssuesMap s1) h
  have hperm : (loadIssuesMap (upsertIssue s1 r)).Perm
      (dictSet (loadIssuesMap s1) r.report_id r) :=
    loadIssuesMap_upsert_perm s1 r h
  have hvals : (mapIssues (loadIssuesMap (upsertIssue s1 r))).Perm
      (mapIssues (dictSet (loadIssuesMap s1) r.report_id r)) := hperm.map Prod.snd
  have hsortperm : (listIssues (upsertIssue s1 r)).Perm
      (mapIssues (dictSet (loadIssuesMap s1) r.report_id r)) :=
    (List.perm_insertionSort updatedGE _).trans hvals
  have hfilter := hsortperm.filter (fun x => x.report_id == r.report_id)
  rw [filter_mapIssues_dictSet (StoreInv_loadIssuesMap s1)] at hfilter
  exact List.perm_singleton.mp hfilter

theorem wf_update_comment {issue : IssueReport} {c : Comment} {now : Datetime}
    (h : wfIssueReport issue = true) (hc : wfComment c = true) :
    wfIssueReport
      { issue with comments := issue.comments ++ [c], updated_at := now } = true := by
  obtain ⟨h1, h2, h3, h4, h5, h6, h7, h8, h9, h10, h11, h12, h13, h14, h15, h16⟩ :=
    wfIssueReport_props h
  simp only [wfIssueReport, Bool.and_eq_true, and_assoc]
  refine ⟨h1, h2, h3, h4, h5, h6, h7, h8, h9, h10, h11, h12, h13, h14, h15, ?_⟩
  simp only [List.all_append, Bool.and_eq_true]
  exact ⟨h16, by simp [hc]⟩

theorem wf_update_status {issue : IssueReport} {st : Status} {now : Datetime}
    (h : wfIssueReport issue = true) :
    wfIssueReport { issue with status := st, updated_at := now } = true := by
  obtain ⟨h1, h2, h3, h4, h5, h6, h7, h8, h9, h10, h11, h12, h13, h14, h15, h16⟩ :=
    wfIssueReport_props h
  simp only [wfIssueReport, Bool.and_eq_true, and_assoc]
  exact ⟨h1, h2, h3, h4, h5, h6, h7, h8, h9, h10, h11, h12, h13, h14, h15, h16⟩

/-- The common argument for both mutations: looking up `issueId` succeeded,
the updated record is well-formed and keeps the id, and its `updated_at`
strictly dominates every record listed before the call; then the record heads
the next listing. -/
theorem mutation_head (s : List RawLine) (issueId : String) (issue updated : IssueReport)
    (hl : lookupId (loadIssuesMap s) issueId = some issue)
    (hwfu : wfIssueReport updated = true)
    (hid : updated.report_id = issue.report_id)
    (hmax : ∀ x ∈ listIssues s, x.updated_at < updated.updated_at) :
    (List.insertionSort updatedGE (mapIssues (loadIssuesMap
      (rewriteAllIssues (dictSet (loadIssuesMap s) issueId updated))))).head? =
      some updated := by
  have hinv : StoreInv (loadIssuesMap s) := StoreInv_loadIssuesMap s
  have hkey : issueId = issue.report_id :=
    (hinv.2 (issueId, issue) (mem_of_lookupId_eq_some hl)).2
  have hset : dictSet (loadIssuesMap s) issueId updated =
      dictSet (loadIssuesMap s) updated.report_id updated := by
    rw [hid, ← hkey]
  have hinv2 : StoreInv (dictSet (loadIssuesMap s) issueId updated) := by
    rw [hset]
    exact StoreInv_dictSet hinv hwfu
  have hperm : (loadIssuesMap (rewriteAllIssues
      (dictSet (loadIssuesMap s) issueId updated))).Perm
      (dictSet (loadIssuesMap s) issueId updated) :=
    loadIssuesMap_rewrite_perm _ hinv2
  have hvals := hperm.map Prod.snd
  apply head_insertionSort_max
  · exact hvals.mem_iff.mpr (value_mem_mapIssues_dictSet _ _ _)
  · intro y hy
    rcases mem_mapIssues_dictSet (hvals.mem_iff.mp hy) with h2 | h2
    · exact Or.inl h2
    · refine Or.inr (hmax y ?_)
      exact (List.perm_insertionSort updatedGE _).mem_iff.mpr h2

/-- C6: `list_issues()` lists all stored records sorted by `updated_at`
descending, and a successful `add_comment` or `update_status` call, run at a
clock value past every listed record, puts its record first in the next
listing. -/
theorem C6_ordering_and_mutation_front (s : List RawLine) :
    List.Sorted updatedGE (listIssues s) ∧
    (listIssues s).Perm (mapIssues (loadIssuesMap s)) ∧
    (∀ (issueId : String) (c : Comment) (now : Datetime) (res : IssueReport)
      (s2 : List RawLine), wfComment c = true →
      addComment s issueId c now = (.ok res, s2) →
      (∀ x ∈ listIssues s, x.updated_at < now) →
      (listIssues s2).head? = some res) ∧
    (∀ (issueId : String) (st : Status) (now : Datetime) (res : IssueReport)
      (s2 : List RawLine),
      updateStatus s issueId st now = (.ok res, s2) →
      (∀ x ∈ listIssues s, x.updated_at < now) →
      (listIssues s2).head? = some res) := by
  refine ⟨List.sorted_insertionSort updatedGE _, List.perm_insertionSort updatedGE _,
    ?_, ?_⟩
  · intro issueId c now res s2 hwfc h hmax
    unfold addComment at h
    cases hl : lookupId (loadIssuesMap s) issueId with
    | none => rw [hl] at h; cases h
    | some issue =>
      rw [hl] at h
      simp only [Prod.mk.injEq] at h
      have hres : res = { issue with comments := issue.comments ++ [c], updated_at := now } := by
        have := h.1
        injection this with h2
        exact h2.symm
      have hs2 : s2 = rewriteAllIssues (dictSet (loadIssuesMap s) issueId
          { issue with comments := issue.comments ++ [c], updated_at := now }) := h.2.symm
      subst hres
      subst hs2
      have hwfi : wfIssueReport issue = true :=
        ((StoreInv_loadIssuesMap s).2 (issueId, issue) (mem_of_lookupId_eq_some hl)).1
      exact mutation_head s issueId issue _ hl (wf_update_comment hwfi hwfc) rfl hmax
  · intro issueId st now res s2 h hmax
    unfold updateStatus at h
    cases hl : lookupId (loadIssuesMap s) issueId with
    | none => rw [hl] at h; cases h
    | some issue =>
      rw [hl] at h
      simp only [Prod.mk.injEq] at h
      have hres : res = { issue with status := st, updated_at := now } := by
        have := h.1
        injection this with h2
        exact h2.symm
      have hs2 : s2 = rewriteAllIssues (dictSet (loadIssuesMap s) issueId
          { issue with status := st, updated_at := now }) := h.2.symm
      subst hres
      subst hs2
      have hwfi : wfIssueReport issue = true :=
        ((StoreInv_loadIssuesMap s).2 (issueId, issue) (mem_of_lookupId_eq_some hl)).1
      exact mutation_head s issueId issue _ hl (wf_update_status hwfi) rfl hmax

/-- C8: during replay, blank lines, JSON decode failures, non-object
documents and schema-invalid payloads are skipped without aborting the load
(replay is total and the skipped line leaves the reconstructed map
unchanged), and a later valid line overwrites any earlier line sharing its
`report_id`. -/
theorem C8_replay_skips_and_last_write_wins :
    loadLine RawLine.blankLine = none ∧
    loadLine RawLine.badJsonLine = none ∧
    (∀ j : Json, Json.isObjB j = false → loadLine (RawLine.jsonLine j) = none) ∧
    (∀ (l1 l2 : List RawLine) (b : RawLine), loadLine b = none →
      loadIssuesMap (l1 ++ b :: l2) = loadIssuesMap (l1 ++ l2)) ∧
    (∀ (l1 : List RawLine) (j : Json) (r : IssueReport),
      loadLine (RawLine.jsonLine j) = some r →
      lookupId (loadIssuesMap (l1 ++ [RawLine.jsonLine j])) r.report_id = some r) := by
  refine ⟨rfl, rfl, ?_, ?_, ?_⟩
  · intro j hj
    cases j with
    | obj fields => simp [Json.isObjB] at hj
    | null => rfl
    | bool b => rfl
    | num q => rfl
    | str s => rfl
    | arr a => rfl
  · intro l1 l2 b hb
    unfold loadIssuesMap
    rw [loadMapGo_append, loadMapGo_append]
    simp only [loadMapGo, hb, loadMapStep]
  · intro l1 j r hj
    unfold loadIssuesMap
    rw [loadMapGo_append]
    simp only [loadMapGo, hj, loadMapStep]
    exact lookupId_dictSet_self _ _ _

/-- C10: `add_comment` and `update_status` against an unknown id fail with
the not-found persistence error before any write: the returned log state is
the original, so `get_issue` and `list_issues` observe an unchanged store. -/
theorem C10_missing_id_mutation_noop (s : List RawLine) (issueId : String)
    (c : Comment) (st : Status) (now : Datetime)
    (h : getIssue s issueId = none) :
    addComment s issueId c now = (.error ("Issue " ++ issueId ++ " not found."), s) ∧
    updateStatus s issueId st now = (.error ("Issue " ++ issueId ++ " not found."), s) ∧
    listIssues (addComment s issueId c now).2 = listIssues s ∧
    listIssues (updateStatus s issueId st now).2 = listIssues s ∧
    getIssue (addComment s issueId c now).2 issueId = getIssue s issueId := by
  have h2 : lookupId (loadIssuesMap s) issueId = none := h
  unfold addComment updateStatus
  rw [h2]
  exact ⟨rfl, rfl, rfl, rfl, rfl⟩

theorem validateFollowup_ok_inv {x y : AIFormattedIssue}
    (h : validateFollowupConsistency x = .ok y) :
    ¬(y.needs_followup = true ∧ y.followup_questions = []) := by
  unfold validateFollowupConsistency at h
  by_cases hc : (x.needs_followup : Prop) ∧ x.followup_questions = []
  · rw [if_pos hc] at h; cases h
  · rw [if_neg hc] at h
    injection h with h
    subst h
    exact fun hy => hc ⟨hy.1, hy.2⟩

theorem modelValidateAI_ok_inv {j : List (String × Json)} {r : AIFormattedIssue}
    (h : modelValidateAIFormattedIssue j = .ok r) :
    ¬(r.needs_followup = true ∧ r.followup_questions = []) := by
  simp only [modelValidateAIFormattedIssue] at h
  by_cases hk : j.all (fun p => aiIssueKeys.contains p.1) = true
  case neg => rw [if_neg hk] at h; cases h
  rw [if_pos hk] at h
  cases e1 : vReqTextAI (lookupField j "issue") "issue" 3 500 with
  | error err => simp only [e1, err_bind] at h; cases h
  | ok iss =>
  simp only [e1, ok_bind] at h
  cases e2 : vReqTextAI (lookupField j "reported_observation") "reported_observation" 3 1000 with
  | error err => simp only [e2, err_bind] at h; cases h
  | ok rep =>
  simp only [e2, ok_bind] at h
  cases e3 : vUrgencyNorm (lookupField j "urgency") with
  | error err => simp only [e3, err_bind] at h; cases h
  | ok urg =>
  simp only [e3, ok_bind] at h
  cases e4 : vCategoryNorm (lookupField j "category") with
  | error err => simp only [e4, err_bind] at h; cases h
  | ok cat =>
  simp only [e4, ok_bind] at h
  cases e5 : vReqTextAI (lookupField j "recommended_action") "recommended_action" 3 1200 with
  | error err => simp only [e5, err_bind] at h; cases h
  | ok act =>
  simp only [e5, ok_bind] at h
  cases e6 : vEntities (lookupField j "extracted_entities") with
  | error err => simp only [e6, err_bind] at h; cases h
  | ok ents =>
  simp only [e6, ok_bind] at h
  cases e7 : vConfidence (lookupField j "confidence") with
  | error err => simp only [e7, err_bind] at h; cases h
  | ok conf =>
  simp only [e7, ok_bind] at h
  cases e8 : vBoolDefaultFalse (lookupField j "needs_followup") with
  | error err => simp only [e8, err_bind] at h; cases h
  | ok needsF =>
  simp only [e8, ok_bind] at h
  cases e9 : vStrListLoose (lookupField j "followup_questions") with
  | error err => simp only [e9, err_bind] at h; cases h
  | ok fqsRaw =>
  simp only [e9, ok_bind] at h
  cases e10 : vOptStrStrip (lookupField j "photo_observation") "photo_observation" 500 with
  | error err => simp only [e10, err_bind] at h; cases h
  | ok po =>
  simp only [e10, ok_bind] at h
  exact validateFollowup_ok_inv h

/-- C2: constructing an `AIFormattedIssue` fails whenever `needs_followup` is
true while the follow-up list is empty after normalization — the after-model
validator rejects exactly that combination, so no validated value carries it
— and a value with `needs_followup` false never fails that check. -/
theorem C2_followup_invariant (a : AIFormattedIssue) (j : List (String × Json))
    (r : AIFormattedIssue) :
    (a.needs_followup = true → a.followup_questions = [] →
      validateFollowupConsistency a =
        .error "followup_questions must be provided when needs_followup is true.") ∧
    (a.needs_followup = false → validateFollowupConsistency a = .ok a) ∧
    (modelValidateAIFormattedIssue j = .ok r → r.needs_followup = true →
      r.followup_questions ≠ []) := by
  refine ⟨?_, ?_, ?_⟩
  · intro h1 h2
    unfold validateFollowupConsistency
    rw [if_pos ⟨h1, h2⟩]
  · intro h1
    have hnc : ¬((a.needs_followup : Prop) ∧ a.followup_questions = []) := by
      intro hc
      rw [h1] at hc
      exact absurd hc.1 (by simp)
    unfold validateFollowupConsistency
    rw [if_neg hnc]
  · intro hok hneeds hempty
    exact modelValidateAI_ok_inv hok ⟨hneeds, hempty⟩

/-- C1: `format_issue` performs at most one repair attempt.  When the first
response fails extraction or validation and the repair response validates,
the repaired value is returned after exactly two requests; when the repair
response also fails, the call fails with the single user-facing formatting
error carrying the second validation detail, still after exactly two
requests — no third request exists on any path. -/
theorem C1_formatter_single_repair (apiKey : String) (c1 c2 : ChatContent)
    (e1 : String) (hkey : apiKey ≠ "") (h1 : parseAndValidate c1 = .error e1) :
    (∀ v, parseAndValidate c2 = .ok v →
      formatIssue apiKey (.content c1) (.content c2) = (.ok v, 2)) ∧
    (∀ e2, parseAndValidate c2 = .error e2 →
      formatIssue apiKey (.content c1) (.content c2) =
        (.error (.aiFormatting
          "We could not format this note right now. Please edit and try again."
          (some e2)), 2)) := by
  constructor
  · intro v h2
    unfold formatIssue
    rw [if_neg hkey]
    simp only [h1, h2]
  · intro e2 h2
    unfold formatIssue
    rw [if_neg hkey]
    simp only [h1, h2]

/-- C7: the router is a pure function of `(category, urgency)` whose output is
always duplicate-free and lexicographically sorted; `(Safety, Low)` yields
exactly the safety default set and `(General, High)` the general default plus
the community manager. -/
theorem C7_router_sorted_dedup :
    (∀ (c : IssueCategory) (u : Urgency),
      (nodupB (routeRecipients c u) && strSortedB (routeRecipients c u)) = true) ∧
    routeRecipients .safety .low = ["On-Call Safety Team", "Property Manager"] ∧
    routeRecipients .general .high = ["Community Manager", "Maintenance Team"] := by
  refine ⟨?_, by decide, by decide⟩
  intro c u
  cases c <;> cases u <;> decide

/-- C3 (amended): when the sanitized note is empty and no image bytes are
supplied — provided metadata sanitization succeeds, since it runs first —
`submit_issue` fails with the user-visible add-a-note rejection and the
formatter is never called (zero requests); likewise, with `source = note`,
an empty sanitized note and an image attached, it fails with the user-visible
enter-notes rejection, again without calling the formatter. -/
theorem C3_empty_submission_rejected
    (fmt : FmtArgs → Except AppError AIFormattedIssue) (s : List RawLine)
    (maxInputChars maxUploadBytes : Nat) (uploadsRelDir reportId : String)
    (now : Datetime) (source : IssueSource) (noteText : String)
    (metadata sm : IssueMetadata) (imageFilename imageMime : Option String)
    (hmeta : sanitizeMetadata metadata = .ok sm)
    (hnote : sanitizeUserText noteText maxInputChars = "") :
    submitIssue fmt s maxInputChars maxUploadBytes uploadsRelDir reportId now source
      noteText metadata none imageFilename imageMime =
      (.error (.userVisible "Please add a note or a photo before submitting." none), 0) ∧
    (∀ bs : List Nat, bs ≠ [] → source = .note →
      submitIssue fmt s maxInputChars maxUploadBytes uploadsRelDir reportId now source
        noteText metadata (some bs) imageFilename imageMime =
        (.error (.userVisible "Please enter notes before formatting for the team." none), 0)) := by
  constructor
  · simp only [submitIssue, hnote, hmeta]
    rfl
  · intro bs hbs hsrc
    subst hsrc
    have hbe : bs.isEmpty = false := by
      cases bs with
      | nil => exact absurd rfl hbs
      | cons x xs => rfl
    simp only [submitIssue, hnote, hmeta, hbe]
    rfl

/-- C3 counterexample to the claim as stated: a submission with empty note,
no image, and a metadata field consisting of one control character (a valid
`IssueMetadata`, since `strip_text` removes only whitespace) makes
`_sanitize_metadata` raise a raw pydantic `ValidationError` before the
presence check, so the failure is not a user-visible rejection — though the
formatter is still never called. -/
theorem C3_counterexample :
    submitIssue (fun _ => Except.error (.configuration "unused")) [] 3000 5242880
      "data/uploads" "rid" 0 .note "" ⟨"\x01", "Bldg", "12", none⟩ none none none =
      (.error (.pydanticValidation "property_name: field required"), 0) ∧
    AppError.isUserVisibleClass (.pydanticValidation "property_name: field required") =
      false :=
  ⟨rfl, rfl⟩

set_option maxRecDepth 4096 in
/-- C9: the orchestrator computes the MIME and embeds it in its own
observation context, but the current formatter prompt contains no occurrence
of it — `_build_user_prompt` has no MIME parameter and emits no MIME line
(and `format_issue` has no `image_mime` keyword even though `submit_issue`
passes one). -/
theorem C9_prompt_omits_mime :
    strContainsSub (buildObservationContext .photo ⟨"Maple Court", "B", "12", none⟩
      "leak under sink" (some "photo.png") (some [1, 2, 3]) (some "image/png"))
      "image/png" = true ∧
    strContainsSub (buildUserPrompt .photo ⟨"Maple Court", "B", "12", none⟩
      (some "leak under sink") (some "photo.png") (some [1, 2, 3])) "image/png" = false :=
  ⟨by decide, by decide⟩

/-! Concrete sample data for the witnesses. -/

def wComment : Comment := ⟨"c1", "Ana", "PM", "Scheduled for Monday", 3⟩

def wReport : IssueReport :=
  ⟨"rid-1", .note, "Maple Court", "B", "12", none, some "water leak", none, none, none,
   "Source: note", "Tenant reports water leak", "Water leak under sink", .high, .plumbing,
   "Dispatch plumber", emptyEntities, ⟨1, 1⟩, false, [], none, .open, [],
   ["Maintenance Team"], 1, 1⟩

def wS0 : List RawLine := saveIssueReport [] wReport

def wRes : IssueReport := { wReport with comments := [wComment], updated_at := 5 }

def wResSt : IssueReport := { wReport with status := Status.acknowledged, updated_at := 7 }

def wRes2 : IssueReport := { wReport with status := Status.resolved, updated_at := 9 }

def wLine1 : RawLine := RawLine.jsonLine (serializeIssueEntry wReport)

def wBadLine : RawLine := RawLine.jsonLine (Json.obj [("entry_type", Json.str "issue_report")])

def wA0 : AIFormattedIssue :=
  ⟨"Dog left unattended", "A dog is tied up on the balcony", .medium, .safety,
   "Send safety team", emptyEntities, ⟨1, 1⟩, true, [], none⟩

def wA1 : AIFormattedIssue := { wA0 with needs_followup := false }

def wFollowupPayload : List (String × Json) :=
  [("issue", Json.str "Dog left unattended"),
   ("reported_observation", Json.str "A dog is tied up on the balcony"),
   ("urgency", Json.str "Medium"),
   ("category", Json.str "Safety"),
   ("recommended_action", Json.str "Send safety team"),
   ("confidence", Json.obj [("category", Json.num 1), ("urgency", Json.num 1)]),
   ("needs_followup", Json.bool true),
   ("followup_questions", Json.arr [Json.str "Which unit is the balcony on?"])]

def wR0 : AIFormattedIssue :=
  ⟨"Dog left unattended", "A dog is tied up on the balcony", .medium, .safety,
   "Send safety team", emptyEntities, ⟨1, 1⟩, true, ["Which unit is the balcony on?"], none⟩

def wBadJson : Json := Json.obj
  [("issue", Json.str "Water leak under sink"),
   ("reported_observation", Json.str "Tenant reports water leak under the kitchen sink"),
   ("urgency", Json.str "urgent"),
   ("category", Json.str "Plumbing"),
   ("recommended_action", Json.str "Dispatch plumber"),
   ("confidence", Json.obj [("category", Json.num 1), ("urgency", Json.num 1)])]

def wGoodJson : Json := Json.obj
  [("issue", Json.str "Water leak under sink"),
   ("reported_observation", Json.str "Tenant reports water leak under the kitchen sink"),
   ("urgency", Json.str "High"),
   ("category", Json.str "Plumbing"),
   ("recommended_action", Json.str "Dispatch plumber"),
   ("confidence", Json.obj [("category", Json.num 1), ("urgency", Json.num 1)])]

def wFmt : AIFormattedIssue :=
  ⟨"Water leak under sink", "Tenant reports water leak under the kitchen sink", .high,
   .plumbing, "Dispatch plumber", emptyEntities, ⟨1, 1⟩, false, [], none⟩

def wMeta : IssueMetadata := ⟨"Maple Court", "B", "12", none⟩

/-- C1 witness: the spec example — a first response whose urgency value
`"urgent"` fails enum validation, repaired by a valid second response; and a
second run where the repair also fails. -/
theorem C1_formatter_single_repair_witness :
    formatIssue "sk-test" (.content (.ok wBadJson)) (.content (.ok wGoodJson)) =
      (.ok wFmt, 2) ∧
    formatIssue "sk-test" (.content (.ok wBadJson)) (.content (.ok wBadJson)) =
      (.error (.aiFormatting
        "We could not format this note right now. Please edit and try again."
        (some "urgency must be a valid Urgency value")), 2) :=
  ⟨(C1_formatter_single_repair "sk-test" (.ok wBadJson) (.ok wGoodJson)
      "urgency must be a valid Urgency value" (by decide) (by rfl)).1 wFmt (by rfl),
   (C1_formatter_single_repair "sk-test" (.ok wBadJson) (.ok wBadJson)
      "urgency must be a valid Urgency value" (by decide) (by rfl)).2
      "urgency must be a valid Urgency value" (by rfl)⟩

/-- C2 witness at concrete values. -/
theorem C2_followup_invariant_witness :
    validateFollowupConsistency wA0 =
      .error "followup_questions must be provided when needs_followup is true." ∧
    validateFollowupConsistency wA1 = .ok wA1 ∧
    wR0.followup_questions ≠ [] :=
  ⟨(C2_followup_invariant wA0 [] wA0).1 rfl rfl,
   (C2_followup_invariant wA1 [] wA1).2.1 rfl,
   (C2_followup_invariant wA1 wFollowupPayload wR0).2.2 (by rfl) rfl⟩

/-- C3 (amended) witness: both rejection branches at concrete inputs. -/
theorem C3_empty_submission_rejected_witness :
    submitIssue (fun _ => Except.error (.configuration "unused")) [] 3000 5242880
      "data/uploads" "rid" 0 .note "" wMeta none none none =
      (.error (.userVisible "Please add a note or a photo before submitting." none), 0) ∧
    submitIssue (fun _ => Except.error (.configuration "unused")) [] 3000 5242880
      "data/uploads" "rid" 0 .note "" wMeta (some [1]) none none =
      (.error (.userVisible "Please enter notes before formatting for the team." none), 0) :=
  ⟨(C3_empty_submission_rejected (fun _ => Except.error (.configuration "unused")) []
      3000 5242880 "data/uploads" "rid" 0 .note "" wMeta wMeta none none
      (by rfl) (by rfl)).1,
   (C3_empty_submission_rejected (fun _ => Except.error (.configuration "unused")) []
      3000 5242880 "data/uploads" "rid" 0 .note "" wMeta wMeta none none
      (by rfl) (by rfl)).2 [1] (by decide) rfl⟩

/-- C4 witness: write one concrete report and reload it. -/
theorem C4_roundtrip_store_witness :
    getIssue (saveIssueReport [] wReport) wReport.report_id = some wReport ∧
    wReport ∈ listIssues (saveIssueReport [] wReport) :=
  C4_roundtrip_store [] wReport (by decide)

/-- C5 witness. -/
theorem C5_upsert_idempotent_witness :
    (listIssues (upsertIssue (upsertIssue [] wReport) wReport)).filter
      (fun x => x.report_id == wReport.report_id) = [wReport] :=
  C5_upsert_idempotent [] wReport (by decide)

/-- C6 witness: a comment and a status change at later clock values move the
record to the front of the listing. -/
theorem C6_ordering_and_mutation_front_witness :
    (listIssues (addComment wS0 "rid-1" wComment 5).2).head? = some wRes ∧
    (listIssues (updateStatus wS0 "rid-1" Status.acknowledged 7).2).head? = some wResSt :=
  ⟨(C6_ordering_and_mutation_front wS0).2.2.1 "rid-1" wComment 5 wRes
      (addComment wS0 "rid-1" wComment 5).2 (by decide) (by rfl) (by decide),
   (C6_ordering_and_mutation_front wS0).2.2.2 "rid-1" Status.acknowledged 7 wResSt
      (updateStatus wS0 "rid-1" Status.acknowledged 7).2 (by rfl) (by decide)⟩

/-- C8 witness: a wrapper object without payload is skipped, a later line
with the same id wins, a non-object document is skipped. -/
theorem C8_replay_witness :
    loadIssuesMap ([wLine1] ++ wBadLine :: []) = loadIssuesMap ([wLine1] ++ []) ∧
    lookupId (loadIssuesMap ([wLine1] ++ [RawLine.jsonLine (serializeIssueEntry wRes2)]))
      wRes2.report_id = some wRes2 ∧
    loadLine (RawLine.jsonLine (Json.str "surprise")) = none :=
  ⟨C8_replay_skips_and_last_write_wins.2.2.2.1 [wLine1] [] wBadLine rfl,
   C8_replay_skips_and_last_write_wins.2.2.2.2 [wLine1] (serializeIssueEntry wRes2)
     wRes2 (by rfl),
   C8_replay_skips_and_last_write_wins.2.2.1 (Json.str "surprise") rfl⟩

/-- C10 witness. -/
theorem C10_missing_id_mutation_noop_witness :
    addComment [] "ghost" wComment 0 = (.error ("Issue " ++ "ghost" ++ " not found."), []) ∧
    updateStatus [] "ghost" Status.open 0 =
      (.error ("Issue " ++ "ghost" ++ " not found."), []) ∧
    listIssues (addComment [] "ghost" wComment 0).2 = listIssues [] ∧
    listIssues (updateStatus [] "ghost" Status.open 0).2 = listIssues [] ∧
    getIssue (addComment [] "ghost" wComment 0).2 "ghost" = getIssue [] "ghost" :=
  C10_missing_id_mutation_noop [] "ghost" wComment Status.open 0 rfl

end PropUpkeep
